import Mathlib

/-!
Shallow embedding of `src/python/condor_client.py` (Mobius condor client).

Python strings are embedded as `List Char` (named `Str` below); the string
primitives used by the source (`str.split('.')`, `'.'.join`, `str.replace`,
`int(...)`, `str(...)`, the `in` substring test) are given executable
definitions with Python's semantics.  The remote Mobius and COMET services
are external collaborators; they are modelled by an oracle (`Env`) that
assigns a response to every remote call, and the program is embedded in a
state monad `M` that records the trace of remote calls and sleeps and can
abort with a Python exception (`KeyError`, `TypeError`, `AttributeError`)
or with `sys.exit`.
-/

set_option maxRecDepth 10000

abbrev Str := List Char

def str (s : String) : Str := s.data

/-- Python `str(n)` for a natural number: auxiliary with fuel (the fuel is
the number itself, which bounds the number of divisions by 10). -/
def natToStrAux : Nat → Nat → Str
  | 0, _ => []
  | _ + 1, 0 => []
  | fuel + 1, n + 1 =>
      natToStrAux fuel ((n + 1) / 10) ++ [Char.ofNat ((n + 1) % 10 + 48)]

/-- Python `str(n)` for a natural number (decimal, no sign, no leading zeros). -/
def natToStr (n : Nat) : Str :=
  if n = 0 then ['0'] else natToStrAux n n

/-- Python `int(s)` on a canonical decimal digit string. -/
def parseNat (s : Str) : Nat :=
  s.foldl (fun n c => n * 10 + (c.toNat - 48)) 0

/-- Python `s.split('.')`: split on every dot; `n` dots give `n+1` parts. -/
def splitDot : Str → List Str
  | [] => [[]]
  | c :: rest =>
      match splitDot rest with
      | [] => [[c]]
      | p :: ps => if c = '.' then [] :: p :: ps else (c :: p) :: ps

/-- Python `'.'.join(parts)`. -/
def joinDot : List Str → Str
  | [] => []
  | [p] => p
  | p :: ps => p ++ '.' :: joinDot ps

/-- Python `pat in s` (substring test) for a nonempty pattern; also used for
`"Exogeni" in site` style family detection. -/
def isSubstr (pat : Str) : Str → Bool
  | [] => pat.isEmpty
  | c :: rest => pat.isPrefixOf (c :: rest) || isSubstr pat rest

/-- Structural worker for `listReplace`: the fuel only bounds the scan
(callers pass the string's length, which suffices because a nonempty match
consumes at least one character), so that the function is structurally
recursive and computable by the kernel. -/
def lrGo (pat rep : Str) : Nat → Str → Str
  | _, [] => []
  | 0, s => s
  | fuel + 1, c :: rest =>
      if pat ≠ [] ∧ pat.isPrefixOf (c :: rest) then
        rep ++ lrGo pat rep fuel (List.drop pat.length (c :: rest))
      else
        c :: lrGo pat rep fuel rest

/-- Python `s.replace(pat, rep)`: replace every non-overlapping occurrence,
scanning left to right.  (The source never calls `replace` with an empty
pattern; for an empty pattern this definition returns `s` unchanged.) -/
def listReplace (pat rep : Str) (s : Str) : Str := lrGo pat rep s.length s

lemma lrGo_fuel_irrel (pat rep : Str) :
    ∀ f1 s f2, s.length ≤ f1 → s.length ≤ f2 →
      lrGo pat rep f1 s = lrGo pat rep f2 s := by
  intro f1
  induction f1 with
  | zero =>
    intro s f2 h1 _
    have hs : s = [] := List.eq_nil_of_length_eq_zero (Nat.le_zero.1 h1)
    subst hs
    cases f2 <;> rfl
  | succ f IH =>
    intro s f2 h1 h2
    cases s with
    | nil => cases f2 <;> rfl
    | cons c rest =>
      cases f2 with
      | zero => simp at h2
      | succ f2' =>
        simp only [lrGo]
        by_cases hm : pat ≠ [] ∧ pat.isPrefixOf (c :: rest) = true
        · rw [if_pos hm, if_pos hm]
          have hplen : 1 ≤ pat.length := by
            cases hpe : pat with
            | nil => exact absurd hpe hm.1
            | cons x xs => simp
          have hlen := List.length_cons c rest
          have hd1 : (List.drop pat.length (c :: rest)).length ≤ f := by
            simp only [List.length_drop, List.length_cons]
            simp only [List.length_cons] at h1
            omega
          have hd2 : (List.drop pat.length (c :: rest)).length ≤ f2' := by
            simp only [List.length_drop, List.length_cons]
            simp only [List.length_cons] at h2
            omega
          rw [IH (List.drop pat.length (c :: rest)) f2' hd1 hd2]
        · rw [if_neg hm, if_neg hm]
          have h1' : rest.length ≤ f := by
            simp only [List.length_cons] at h1
            omega
          have h2' : rest.length ≤ f2' := by
            simp only [List.length_cons] at h2
            omega
          rw [IH rest f2' h1' h2']

/-- Python `str(x)` applied to an optional string (`str(None) = "None"`). -/
def pyStr : Option Str → Str
  | none => str "None"
  | some s => s

/-! ### Address Allocator (lines 32–74 of the source) -/

/-- One dotted-quad octet as accepted by `socket.inet_pton(AF_INET, ·)`:
nonempty, all decimal digits, no leading zero (except `"0"` itself), and
value at most 255.  `is_valid_ipv4_address` is a thin wrapper over this
external library call, modelled here by its documented accept set. -/
def validOctet (s : Str) : Bool :=
  !s.isEmpty && s.all Char.isDigit &&
    (s.length == 1 || s.headI != '0') && parseNat s ≤ 255

/-- Embedding of `is_valid_ipv4_address` (source lines 32–44). -/
def is_valid_ipv4_address (address : Str) : Bool :=
  let os := splitDot address
  os.length == 4 && os.all validOctet

/-- Embedding of `can_ip_satisfy_range` (source lines 46–50). -/
def can_ip_satisfy_range (ip : Str) (n : Nat) : Bool :=
  let os := splitDot ip
  let os := os.set 3 (natToStr (parseNat (os.getD 3 []) + n))
  is_valid_ipv4_address (joinDot os)

/-- Embedding of `get_cidr` (source lines 52–56). -/
def get_cidr (ip : Str) : Str :=
  joinDot ((splitDot ip).set 3 (str "0/24"))

/-- Embedding of `get_cidr_escape` (source lines 58–62); the Python literal
`'0\/24'` contains a literal backslash. -/
def get_cidr_escape (ip : Str) : Str :=
  joinDot ((splitDot ip).set 3 (str "0\\/24"))

/-- Embedding of `get_default_ip_for_condor` (source lines 64–68). -/
def get_default_ip_for_condor (ip : Str) : Str :=
  joinDot ((splitDot ip).set 3 (str "*"))

/-- Embedding of `get_next_ip` (source lines 70–74). -/
def get_next_ip (ip : Str) : Str :=
  joinDot ((splitDot ip).set 3 (natToStr (parseNat ((splitDot ip).getD 3 []) + 1)))

/-- Canonical rendering of a dotted quad from four numeric octets. -/
def renderIP (a b c d : Nat) : Str :=
  joinDot [natToStr a, natToStr b, natToStr c, natToStr d]

example : get_next_ip (str "10.0.0.10") = str "10.0.0.11" := by decide
example : get_next_ip (str "10.0.0.255") = str "10.0.0.256" := by decide
example : can_ip_satisfy_range (str "10.0.0.250") 10 = false := by decide
example : can_ip_satisfy_range (str "10.0.0.10") 3 = true := by decide
example : get_cidr (str "10.0.0.7") = str "10.0.0.0/24" := by decide
example : get_default_ip_for_condor (str "10.0.0.7") = str "10.0.0.*" := by decide
example : is_valid_ipv4_address (str "10.0.0.256") = false := by decide
example : is_valid_ipv4_address (str "10.0.0.010") = false := by decide
example : renderIP 10 0 0 10 = str "10.0.0.10" := by decide

/-! ### Data model

JSON node-shape files (`master.json`, `submit.json`, `worker.json`,
`storage.json`, `stitch.json`) are records with the fields the source
reads or writes.  A field modelled as `Option` with value `none` stands
for JSON `null` (for `stitchIP` in `storage.json`, for an absent key:
reading it raises `KeyError`). -/

structure NodeShape where
  hostNamePrefix : Option Str
  postBootScript : Option Str
  ipAddress : Option Str
  leaseEnd : Option Str
  site : Str
  deriving DecidableEq, Repr

structure StorageFile where
  shape : NodeShape
  stitchIP : Option Str
  deriving DecidableEq, Repr

structure StitchData where
  stitchIP : Str
  target : Str
  tag : Option Str
  deriving DecidableEq, Repr

/-- Contents of one site's data directory: `none` means the file does not
exist (`os.path.exists` is false). -/
structure DataDir where
  stitch : Option StitchData
  storage : Option StorageFile
  master : Option NodeShape
  submit : Option NodeShape
  worker : Option NodeShape
  deriving DecidableEq, Repr

structure NodeInfo where
  name : Str
  state : Str
  deriving DecidableEq, Repr

structure SliceInfo where
  slice : Str
  nodes : List NodeInfo
  deriving DecidableEq, Repr

structure SiteReq where
  site : Str
  vlan : Option Str
  slices : List SliceInfo
  deriving DecidableEq, Repr

/-- A remote response: the JSON `status` field, and (for `get_workflow`)
the decoded `workflowStatus` array. -/
structure Resp where
  status : Nat
  requests : List SiteReq
  deriving DecidableEq, Repr

inductive RemoteCall
  | createWorkflow (host wid : Str)
  | getWorkflow (host wid : Str)
  | deleteWorkflow (host wid : Str)
  | createCompute (host wid : Str) (payload : NodeShape)
  | createStitchport (host wid : Str) (payload : StitchData)
  | cometUpdateFamily (host wid node family value : Str)
  | cometDeleteFamilies (host wid : Str)
  deriving DecidableEq, Repr

/-- Observable behaviour: remote calls (with the status the oracle answered)
and `time.sleep` pauses. -/
inductive Event
  | call (c : RemoteCall) (status : Nat)
  | sleep (seconds : Nat)
  deriving DecidableEq, Repr

/-- The Python dict `ipMap`, as an insertion-ordered association list. -/
abbrev IPMap := List (Str × Str)

def mapContains (m : IPMap) (k : Str) : Bool := m.any (fun p => p.1 == k)

def mapInsert (m : IPMap) (k v : Str) : IPMap :=
  if mapContains m k then m.map (fun p => if p.1 == k then (k, v) else p)
  else m ++ [(k, v)]

def mapLookup (m : IPMap) (k : Str) : Option Str :=
  (m.find? (fun p => p.1 == k)).map (fun p => p.2)

/-- Python exceptions the embedded paths can raise, plus `loopFuelOut`,
which marks non-termination of the unbounded stitch-wait `while` loop
(the embedding runs it on explicit fuel). -/
inductive PyErr
  | keyError
  | typeError
  | attributeError
  | loopFuelOut
  deriving DecidableEq, Repr

inductive Halt
  | exited (code : Nat)
  | raised (e : PyErr)
  deriving DecidableEq, Repr

/-- Response oracle: the `n`-th remote call (counting every Mobius and COMET
call in program order) receives `resp n`. -/
structure Env where
  resp : Nat → Resp

/-- Program state: number of remote calls made, the event trace, and the
`ipMap` dict (a single object shared by reference through the whole run). -/
structure S where
  nCalls : Nat
  events : List Event
  ipMap : IPMap
  deriving DecidableEq, Repr

deriving instance DecidableEq for Except

abbrev M (α : Type) := S → Except (Halt × S) (α × S)

/-- Make a remote call: consult the oracle, record the event (total form). -/
def remoteCallT (env : Env) (c : RemoteCall) (st : S) : Resp × S :=
  let r := env.resp st.nCalls
  (r, { st with nCalls := st.nCalls + 1, events := st.events ++ [Event.call c r.status] })

def pySleepT (n : Nat) (st : S) : S :=
  { st with events := st.events ++ [Event.sleep n] }

/-! ### Node Provisioner: `create_compute` (source lines 530–568) -/

/-- The ordered token-substitution chain of `create_compute`
(source lines 545–563), extracted as a pure function on the script. -/
def renderScript (sc : Str) (workflowId oldnodename nodename : Str)
    (submitSubnet forwardIP ipStart subnet defIP storagename : Option Str) : Str :=
  let s := listReplace (str "WORKFLOW") workflowId sc
  let s := listReplace oldnodename nodename s
  let s := listReplace (str "SUBMIT") (pyStr submitSubnet) s
  let s := match forwardIP with
    | some f =>
        let s := listReplace (str "IPADDR") f s
        match subnet with
        | some sn => listReplace (str "SUBNET") sn s
        | none => s
    | none => s
  let s := match ipStart with
    | some ip =>
        let s := listReplace (str "IPADDR") ip s
        match subnet with
        | some sn => listReplace (str "SUBNET") sn s
        | none => s
    | none => s
  let s := match defIP with
    | some d => listReplace (str "REPLACEIP") d s
    | none => s
  match storagename with
  | some stn => listReplace (str "STORAGENODE") stn s
  | none => s

/-- Node-name resolution of `create_compute` (source lines 531–535): with a
host-name prefix the name is `<prefix><count>` for an exogeni-family site
and `<workflowId>-<prefix><count>` otherwise; with a null prefix the
caller-supplied fallback name is kept. -/
def ccName (mdata : NodeShape) (nodename0 workflowId : Str) (count : Nat) (site : Str) : Str :=
  match mdata.hostNamePrefix with
  | some p =>
      if isSubstr (str "Exogeni") site then p ++ natToStr count
      else workflowId ++ str "-" ++ p ++ natToStr count
  | none => nodename0

/-- Shape mutation of `create_compute` (source lines 536–563): assign the
IP and lease end when given, then render the boot script in place. -/
def ccShape (mdata : NodeShape) (ipStart leaseEnd : Option Str)
    (workflowId oldnodename nodename : Str)
    (submitSubnet storagename subnet forwardIP : Option Str) : NodeShape :=
  let defIP := ipStart.map get_default_ip_for_condor
  let mdata := match ipStart with
    | some ip => { mdata with ipAddress := some ip }
    | none => mdata
  let mdata := match leaseEnd with
    | some l => { mdata with leaseEnd := some l }
    | none => mdata
  match mdata.postBootScript with
  | some sc =>
      let rendered := renderScript sc workflowId oldnodename nodename submitSubnet
        forwardIP ipStart subnet defIP storagename
      { mdata with postBootScript := some rendered }
  | none => mdata

/-- Embedding of `create_compute`: resolves the node name, records the IP
in the shared `ipMap`, mutates the shape (`ccShape`) and submits it.
Returns the response, the resolved name and the mutated shape (which the
caller may reuse: the worker loop does). -/
def create_compute (env : Env) (host nodename0 : Str) (ipStart leaseEnd : Option Str)
    (workflowId : Str) (mdata : NodeShape) (count : Nat) (oldnodename site : Str)
    (submitSubnet storagename subnet forwardIP : Option Str) (st : S) :
    (Resp × Str × NodeShape) × S :=
  let nodename := ccName mdata nodename0 workflowId count site
  let mdata := ccShape mdata ipStart leaseEnd workflowId oldnodename nodename
    submitSubnet storagename subnet forwardIP
  let st := match ipStart with
    | some ip => { st with ipMap := mapInsert st.ipMap nodename ip }
    | none => st
  let (r, st) := remoteCallT env (RemoteCall.createCompute host workflowId mdata) st
  ((r, nodename, mdata), st)

/-! ### Site Cluster Provisioner (source lines 425–528) -/

/-- Shared tail of `provision_storage` (source lines 446–458): create the
storage node; on non-200 delete the whole workflow and report failure. -/
def provision_storage_create (env : Env) (args_mobiushost args_workflowId : Str)
    (leaseEnd : Option Str) (site : Str) (count : Nat) (ipStart : Option Str)
    (submitSubnet exogeniSubnet : Option Str) (stdata : NodeShape) (st : S) :
    (Bool × Nat × Option Str) × S :=
  let nodename := str "Node" ++ natToStr count
  let oldnodename := str "NODENAME"
  let ((resp, nodename, _), st) :=
    create_compute env args_mobiushost nodename ipStart leaseEnd args_workflowId
      stdata count oldnodename site submitSubnet none none exogeniSubnet st
  if resp.status ≠ 200 then
    let (_, st) := remoteCallT env (RemoteCall.deleteWorkflow args_mobiushost args_workflowId) st
    ((false, count, none), st)
  else
    ((true, count + 1, some nodename), st)

/-- Embedding of `provision_storage` (source lines 425–458).  With a
`postBootScript` present but no start IP, `get_cidr_escape(None)` raises
`AttributeError` (`None.split`). -/
def provision_storage (env : Env) (args_mobiushost args_workflowId : Str)
    (leaseEnd : Option Str) (datadir : DataDir) (site : Str) (count : Nat)
    (ipStart : Option Str) (submitSubnet sip exogeniSubnet : Option Str) :
    M (Bool × Nat × Option Str) := fun st =>
  match datadir.storage with
  | none => Except.ok ((true, count, none), st)
  | some stor =>
    let stdata := { stor.shape with site := site }
    match stdata.postBootScript with
    | some sc =>
      match ipStart with
      | none => Except.error (Halt.raised PyErr.attributeError, st)
      | some ip =>
        let cidr := get_cidr_escape ip
        let sc := listReplace (str "CIDR") cidr sc
        let sc := match sip with
          | some v => listReplace (str "SIP") v sc
          | none => sc
        let stdata := { stdata with postBootScript := some sc }
        Except.ok (provision_storage_create env args_mobiushost args_workflowId leaseEnd
          site count ipStart submitSubnet exogeniSubnet stdata st)
    | none =>
        Except.ok (provision_storage_create env args_mobiushost args_workflowId leaseEnd
          site count ipStart submitSubnet exogeniSubnet stdata st)

/-- The worker loop of `provision_condor_cluster` (source lines 513–527):
one shared `wdata` shape object is threaded through every iteration, and
`oldnodename` is rebound to the just-created worker's name. -/
def provision_workers (env : Env) (args_mobiushost args_workflowId : Str)
    (leaseEnd : Option Str) (site : Str)
    (storagename subnet forwardIP submitSubnet : Option Str) :
    Nat → NodeShape → Str → Option Str → Nat → S → (Bool × Nat) × S
  | 0, _, _, _, count, st => ((true, count), st)
  | rem + 1, wdata, oldnodename, ipStart, count, st =>
    let nodename := str "Node" ++ natToStr count
    let ipStart := ipStart.map get_next_ip
    let ((resp, nodename, wdata), st) :=
      create_compute env args_mobiushost nodename ipStart leaseEnd args_workflowId
        wdata count oldnodename site submitSubnet storagename subnet forwardIP st
    let oldnodename := nodename
    if resp.status ≠ 200 then
      let (_, st) := remoteCallT env (RemoteCall.deleteWorkflow args_mobiushost args_workflowId) st
      ((false, count), st)
    else
      provision_workers env args_mobiushost args_workflowId leaseEnd site
        storagename subnet forwardIP submitSubnet rem wdata oldnodename ipStart (count + 1) st

/-- Worker phase of `provision_condor_cluster`: skipped when `worker.json`
is absent; `range(None)` raises `TypeError` when a worker shape exists but
no worker count was given. -/
def provision_cluster_workers (env : Env) (args_mobiushost args_workflowId : Str)
    (leaseEnd : Option Str) (site : Str) (wdata : Option NodeShape)
    (workers : Option Nat) (storagename subnet forwardIP submitSubnet : Option Str)
    (ipStart : Option Str) (count : Nat) : M (Bool × Nat) := fun st =>
  match wdata with
  | none => Except.ok ((true, count), st)
  | some wd =>
    match workers with
    | none => Except.error (Halt.raised PyErr.typeError, st)
    | some w =>
      Except.ok (provision_workers env args_mobiushost args_workflowId leaseEnd site
        storagename subnet forwardIP submitSubnet w wd (str "NODENAME") ipStart count st)

/-- Submit phase of `provision_condor_cluster` (source lines 500–512),
followed by the worker phase. -/
def provision_cluster_submit (env : Env) (args_mobiushost args_workflowId : Str)
    (leaseEnd : Option Str) (site : Str) (sdata wdata : Option NodeShape)
    (workers : Option Nat) (storagename subnet forwardIP submitSubnet : Option Str)
    (ipStart : Option Str) (count : Nat) : M (Bool × Nat) := fun st =>
  match sdata with
  | none =>
      provision_cluster_workers env args_mobiushost args_workflowId leaseEnd site wdata
        workers storagename subnet forwardIP submitSubnet ipStart count st
  | some sd =>
    let nodename := str "Node" ++ natToStr count
    let ipStart := ipStart.map get_next_ip
    let ((resp, _, _), st) :=
      create_compute env args_mobiushost nodename ipStart leaseEnd args_workflowId
        sd count (str "NODENAME") site submitSubnet storagename subnet forwardIP st
    if resp.status ≠ 200 then
      let (_, st) := remoteCallT env (RemoteCall.deleteWorkflow args_mobiushost args_workflowId) st
      Except.ok ((false, count), st)
    else
      provision_cluster_workers env args_mobiushost args_workflowId leaseEnd site wdata
        workers storagename subnet forwardIP submitSubnet ipStart (count + 1) st

/-- Embedding of `provision_condor_cluster` (source lines 460–528):
master → submit → workers, strictly in order, aborting the workflow on the
first non-200 response.  The master IP advance happens only when both an
address range and a storage-node name are present (source line 491). -/
def provision_condor_cluster (env : Env) (args_mobiushost args_workflowId : Str)
    (leaseEnd : Option Str) (datadir : DataDir) (site : Str) (count : Nat)
    (ipStart : Option Str) (workers : Option Nat) (storagename : Option Str)
    (subnet forwardIP submitSubnet : Option Str) : M (Bool × Nat) := fun st =>
  let mdata := datadir.master.map (fun m => { m with site := site })
  let sdata := datadir.submit.map (fun m => { m with site := site })
  let wdata := datadir.worker.map (fun m => { m with site := site })
  match mdata with
  | none =>
      provision_cluster_submit env args_mobiushost args_workflowId leaseEnd site sdata wdata
        workers storagename subnet forwardIP submitSubnet ipStart count st
  | some md =>
    let nodename := str "Node" ++ natToStr count
    let ipStart := if ipStart.isSome && storagename.isSome then ipStart.map get_next_ip else ipStart
    let ((resp, _, _), st) :=
      create_compute env args_mobiushost nodename ipStart leaseEnd args_workflowId
        md count (str "NODENAME") site submitSubnet storagename subnet forwardIP st
    if resp.status ≠ 200 then
      let (_, st) := remoteCallT env (RemoteCall.deleteWorkflow args_mobiushost args_workflowId) st
      Except.ok ((false, count), st)
    else
      provision_cluster_submit env args_mobiushost args_workflowId leaseEnd site sdata wdata
        workers storagename subnet forwardIP submitSubnet ipStart (count + 1) st

/-! ### Context Publisher (COMET) and Stitching Coordinator -/

/-- Inner value of the `pubKeysVal` constant (source line 28). -/
def pubKeysVal : Str := str "[\x7b\"publicKey\":\"\"\x7d]"

/-- Inner value of the `hostNameVal` constant (source line 29); the
publishing loop substitutes `REPLACE` and `IPADDR` inside it. -/
def hostNameVal : Str := str "[\x7b\"hostName\":\"REPLACE\",\"ip\":\"IPADDR\"\x7d]"

/-- Per-node body of the COMET publishing loop (source lines 344–381):
publish the key placeholder, resolve the hostname (platform suffix for
chameleon slices; otherwise possibly update the in-memory stitch target and
its observed state), substitute hostname and IP, publish the host record. -/
def comet_node (env : Env) (comethost wid sliceName : Str)
    (acc : Option StitchData × Option Str) (n : NodeInfo) (st : S) :
    (Option StitchData × Option Str) × S :=
  let (stitchdata, stitchNodeStatus) := acc
  let (_, st) := remoteCallT env
    (RemoteCall.cometUpdateFamily comethost wid n.name (str "pubkeysall") pubKeysVal) st
  let (hostname, stitchdata, stitchNodeStatus) :=
    if isSubstr (str "Chameleon") sliceName then
      (n.name ++ str ".novalocal", stitchdata, stitchNodeStatus)
    else
      match stitchdata with
      | some sd =>
          if isSubstr sd.target n.name then
            (n.name, some { sd with target := n.name }, some n.state)
          else (n.name, some sd, stitchNodeStatus)
      | none => (n.name, none, stitchNodeStatus)
  let hostVal := listReplace (str "REPLACE") hostname hostNameVal
  let hostVal :=
    if mapContains st.ipMap n.name then
      listReplace (str "IPADDR") ((mapLookup st.ipMap n.name).getD []) hostVal
    else
      listReplace (str "IPADDR") [] hostVal
  let (_, st) := remoteCallT env
    (RemoteCall.cometUpdateFamily comethost wid n.name (str "hostsall") hostVal) st
  ((stitchdata, stitchNodeStatus), st)

def comet_nodes (env : Env) (comethost wid sliceName : Str) :
    List NodeInfo → (Option StitchData × Option Str) → S →
    (Option StitchData × Option Str) × S
  | [], acc, st => (acc, st)
  | n :: ns, acc, st =>
      let (acc, st) := comet_node env comethost wid sliceName acc n st
      comet_nodes env comethost wid sliceName ns acc st

def comet_slices (env : Env) (comethost wid : Str) :
    List SliceInfo → (Option StitchData × Option Str) → S →
    (Option StitchData × Option Str) × S
  | [], acc, st => (acc, st)
  | sl :: ss, acc, st =>
      let (acc, st) := comet_nodes env comethost wid sl.slice sl.nodes acc st
      comet_slices env comethost wid ss acc st

/-- Request-level COMET loop (source lines 337–381): detect the chameleon
VLAN tag, then walk the request's slices and nodes publishing context. -/
def comet_reqs (env : Env) (comethost wid : Str) :
    List SiteReq → (Option Str × Option StitchData × Option Str) → S →
    (Option Str × Option StitchData × Option Str) × S
  | [], acc, st => (acc, st)
  | r :: rs, acc, st =>
      let (vlanAcc, sd, sns) := acc
      let vlanAcc :=
        if isSubstr (str "Chameleon") r.site then
          match r.vlan with
          | some v => some v
          | none => vlanAcc
        else vlanAcc
      let ((sd, sns), st) := comet_slices env comethost wid r.slices (sd, sns) st
      comet_reqs env comethost wid rs (vlanAcc, sd, sns) st

/-- One scan of a `get_workflow` response for the stitch target's state
(source lines 389–397): the last matching node wins. -/
def scanStitchState (target : Str) (reqs : List SiteReq) (sns : Option Str) : Option Str :=
  reqs.foldl (fun acc r =>
    if isSubstr (str "Exogeni") r.site then
      r.slices.foldl (fun acc2 sl =>
        sl.nodes.foldl (fun acc3 n => if target == n.name then some n.state else acc3) acc2) acc
    else acc) sns

/-- The unbounded `while stitchNodeStatus != "Active"` poll loop (source
lines 383–399), run on explicit fuel: each iteration fetches the workflow,
rescans for the target's state, and sleeps 5 seconds.  Entering an
iteration with no stitch data raises `TypeError` (line 384 subscripts
`None`); exhausted fuel marks the loop as non-terminating. -/
def stitch_wait (env : Env) (mobiushost wid : Str) (stitchdata : Option StitchData) :
    Nat → Option Str → S → Except (Halt × S) (Unit × S)
  | fuel, sns, st =>
    if sns == some (str "Active") then Except.ok ((), st)
    else
      match stitchdata, fuel with
      | none, _ => Except.error (Halt.raised PyErr.typeError, st)
      | some _, 0 => Except.error (Halt.raised PyErr.loopFuelOut, st)
      | some sd, fuel + 1 =>
        let (resp, st) := remoteCallT env (RemoteCall.getWorkflow mobiushost wid) st
        let sns := if resp.status == 200 then scanStitchState sd.target resp.requests sns else sns
        let st := pySleepT 5 st
        stitch_wait env mobiushost wid (some sd) fuel sns st

/-- Embedding of `perform_stitch` (source lines 411–423): load the stitch
file when no data is resident, tag it with the VLAN, submit one
stitch-port request.  With neither data nor a data directory, Python
raises `TypeError` (`None + "/stitch.json"`). -/
def perform_stitch (env : Env) (mobiushost wid : Str) (datadir : Option DataDir)
    (vlan : Str) (data : Option StitchData) : M (Option Resp) := fun st =>
  let data0 : Except (Halt × S) (Option StitchData) :=
    match data with
    | none =>
      match datadir with
      | none => Except.error (Halt.raised PyErr.typeError, st)
      | some dd => Except.ok dd.stitch
    | some d => Except.ok (some d)
  match data0 with
  | Except.error e => Except.error e
  | Except.ok none => Except.ok (none, st)
  | Except.ok (some d) =>
    let d := { d with tag := some vlan }
    let (resp, st) := remoteCallT env (RemoteCall.createStitchport mobiushost wid d) st
    Except.ok (some resp, st)

/-- The stitching hand-off of `main` (source lines 382–404): only when a
chameleon VLAN was detected and an exogeni site is configured, wait for
the target to become Active, settle 60 seconds, then stitch. -/
def stitch_phase (env : Env) (fuel : Nat) (mobiushost wid : Str)
    (exogenisite : Option Str) (exodatadir : Option DataDir)
    (stitcVlan stitchNodeStatus : Option Str)
    (stitchdata : Option StitchData) : M Unit := fun st =>
  match stitcVlan with
  | none => Except.ok ((), st)
  | some vlan =>
    if exogenisite.isSome then
      match stitch_wait env mobiushost wid stitchdata fuel stitchNodeStatus st with
      | Except.error e => Except.error e
      | Except.ok (_, st) =>
        let st := pySleepT 60 st
        match perform_stitch env mobiushost wid exodatadir vlan stitchdata st with
        | Except.error e => Except.error e
        | Except.ok (_, st) => Except.ok ((), st)
    else Except.ok ((), st)

/-! ### Cross-Site Orchestrator: `main` (source lines 76–409) -/

/-- Parsed command-line arguments relevant to the embedded behaviour.  A
data directory argument is modelled together with the directory's
contents. -/
structure Args where
  operation : Str
  exogenisite : Option Str
  chameleonsite : Option Str
  exoworkers : Option Nat
  chworkers : Option Nat
  comethost : Option Str
  cert : Option Str
  key : Option Str
  mobiushost : Str
  workflowId : Str
  exoipStart : Option Str
  chipStart : Option Str
  leaseEnd : Option Str
  exodatadir : Option DataDir
  chdatadir : Option DataDir
  deriving DecidableEq, Repr

/-- Sequencing helper for the `Except`-with-state embedding. -/
def bindE {α β : Type} (x : Except (Halt × S) (α × S))
    (f : α → S → Except (Halt × S) (β × S)) : Except (Halt × S) (β × S) :=
  match x with
  | Except.error e => Except.error e
  | Except.ok (a, st) => f a st

/-- Start-IP validation for one site (source lines 220–228 and 229–237):
invalid address or insufficient range exits with code 1; a start IP with
no worker count raises `TypeError` (`None + 1`). -/
def validate_ip_range (ipStart : Option Str) (workers : Option Nat) : M Unit := fun st =>
  match ipStart with
  | none => Except.ok ((), st)
  | some ip =>
    if is_valid_ipv4_address ip = false then Except.error (Halt.exited 1, st)
    else
      match workers with
      | none => Except.error (Halt.raised PyErr.typeError, st)
      | some w =>
        if can_ip_satisfy_range ip (w + 1) = false then Except.error (Halt.exited 1, st)
        else Except.ok ((), st)

/-- Stitch metadata and storage addressing hints for the exogeni site
(source lines 261–278): read `stitch.json` (stitch data and `sip`), read
`storage.json`'s `stitchIP` (raising `KeyError` when the key is missing)
and derive the submit subnet.  Returns `(stitchdata, sip, submitSubnet)`. -/
def resolve_exo_hints (args : Args) : M (Option StitchData × Option Str × Option Str) :=
  fun st =>
  match args.exogenisite, args.exodatadir with
  | some _, some dd =>
    let hints := match dd.stitch with
      | some sd => (some sd, some sd.stitchIP)
      | none => (none, none)
    match dd.storage with
    | some stor =>
      match stor.stitchIP with
      | none => Except.error (Halt.raised PyErr.keyError, st)
      | some ip => Except.ok ((hints.1, hints.2, some (get_cidr ip)), st)
    | none => Except.ok ((hints.1, hints.2, none), st)
  | _, _ => Except.ok ((none, none, none), st)

/-- Final step of the create flow (source lines 327–404): re-fetch the
workflow, publish COMET context when configured, then hand off to the
Stitching Coordinator. -/
def create_phase_final (env : Env) (fuel : Nat) (args : Args)
    (stitchdata : Option StitchData) : M Unit := fun st =>
  let (resp, st) := remoteCallT env (RemoteCall.getWorkflow args.mobiushost args.workflowId) st
  let (acc, st) :=
    match args.comethost with
    | some ch =>
        if resp.status == 200 then
          comet_reqs env ch args.workflowId resp.requests (none, stitchdata, none) st
        else ((none, stitchdata, none), st)
    | none => ((none, stitchdata, none), st)
  let (stitcVlan, stitchdata, stitchNodeStatus) := acc
  stitch_phase env fuel args.mobiushost args.workflowId args.exogenisite args.exodatadir
    stitcVlan stitchNodeStatus stitchdata st

/-- Exogeni cluster pass (source lines 302–326): derive the chameleon
subnet, compute the forward IP as `ipMap[exostoragename]` — a `KeyError`
when the storage node was never inserted into the allocation map — and
provision the full exogeni cluster. -/
def create_phase_exo_cluster (env : Env) (fuel : Nat) (args : Args)
    (stitchdata : Option StitchData) (submitSubnet : Option Str)
    (exostoragename : Option Str) (count : Nat) : M Unit := fun st =>
  match args.exogenisite, args.exodatadir with
  | some exosite, some exodd =>
    let chSubnet := args.chipStart.map get_cidr
    let fwd : Except (Halt × S) (Option Str) :=
      match exostoragename with
      | some nm =>
        match mapLookup st.ipMap nm with
        | none => Except.error (Halt.raised PyErr.keyError, st)
        | some fip => Except.ok (some fip)
      | none => Except.ok none
    match fwd with
    | Except.error e => Except.error e
    | Except.ok forwardIP =>
      bindE (provision_condor_cluster env args.mobiushost args.workflowId args.leaseEnd
          exodd exosite count args.exoipStart args.exoworkers exostoragename chSubnet
          forwardIP submitSubnet st)
        (fun r st =>
          if r.1 = false then Except.ok ((), st)
          else create_phase_final env fuel args stitchdata st)
  | _, _ => create_phase_final env fuel args stitchdata st

/-- Chameleon cluster pass (source lines 291–301): forward IP comes from
the stitch metadata's `stitchIP`, the subnet from the exogeni start IP. -/
def create_phase_ch_cluster (env : Env) (fuel : Nat) (args : Args)
    (stitchdata : Option StitchData) (submitSubnet : Option Str)
    (chstoragename exostoragename : Option Str) (count : Nat) : M Unit := fun st =>
  match args.chameleonsite, args.chdatadir with
  | some chsite, some chdd =>
    let exogeniSubnet := args.exoipStart.map get_cidr
    let forwardIP := stitchdata.map (fun sd => sd.stitchIP)
    bindE (provision_condor_cluster env args.mobiushost args.workflowId args.leaseEnd
        chdd chsite count args.chipStart args.chworkers chstoragename exogeniSubnet
        forwardIP submitSubnet st)
      (fun r st =>
        if r.1 = false then Except.ok ((), st)
        else create_phase_exo_cluster env fuel args stitchdata submitSubnet exostoragename r.2 st)
  | _, _ =>
    create_phase_exo_cluster env fuel args stitchdata submitSubnet exostoragename count st

/-- Exogeni storage pass (source lines 287–290). -/
def create_phase_exo_storage (env : Env) (fuel : Nat) (args : Args)
    (stitchdata : Option StitchData) (sip submitSubnet : Option Str)
    (chstoragename : Option Str) (count : Nat) : M Unit := fun st =>
  match args.exogenisite, args.exodatadir with
  | some exosite, some exodd =>
    bindE (provision_storage env args.mobiushost args.workflowId args.leaseEnd
        exodd exosite count args.exoipStart submitSubnet sip none st)
      (fun r st =>
        let (status, count, exoname) := r
        if status = false then Except.ok ((), st)
        else create_phase_ch_cluster env fuel args stitchdata submitSubnet
          chstoragename exoname count st)
  | _, _ =>
    create_phase_ch_cluster env fuel args stitchdata submitSubnet chstoragename none count st

/-- Chameleon storage pass (source lines 279–286): on success the resolved
name gets the platform suffix `.novalocal` (a `TypeError` when no storage
shape existed and the name is `None`). -/
def create_phase_ch_storage (env : Env) (fuel : Nat) (args : Args)
    (stitchdata : Option StitchData) (sip submitSubnet : Option Str) : M Unit := fun st =>
  match args.chameleonsite, args.chdatadir with
  | some chsite, some chdd =>
    let exogeniSubnet := args.exoipStart.map get_cidr
    bindE (provision_storage env args.mobiushost args.workflowId args.leaseEnd
        chdd chsite 0 args.chipStart submitSubnet none exogeniSubnet st)
      (fun r st =>
        let (status, count, chname) := r
        if status = false then Except.ok ((), st)
        else
          match chname with
          | none => Except.error (Halt.raised PyErr.typeError, st)
          | some nm =>
            create_phase_exo_storage env fuel args stitchdata sip submitSubnet
              (some (nm ++ str ".novalocal")) count st)
  | _, _ =>
    create_phase_exo_storage env fuel args stitchdata sip submitSubnet none 0 st

/-- The `create` operation (source lines 214–404): argument validation
(exit 1 before any remote call on failure), workflow creation, the four
provisioning passes, context publishing and stitching. -/
def mainCreate (env : Env) (fuel : Nat) (args : Args) : M Unit := fun st =>
  let st := { st with ipMap := [] }
  if (args.exogenisite.isNone && args.chameleonsite.isNone) ||
     (args.exoworkers.isNone && args.chworkers.isNone) ||
     (args.exodatadir.isNone && args.chdatadir.isNone) then
    Except.error (Halt.exited 1, st)
  else
    bindE (validate_ip_range args.exoipStart args.exoworkers st) (fun _ st =>
    bindE (validate_ip_range args.chipStart args.chworkers st) (fun _ st =>
    if args.comethost.isSome && (args.cert.isNone || args.key.isNone) then
      Except.error (Halt.exited 1, st)
    else if (match args.chameleonsite with
             | some s2 => !isSubstr (str "Chameleon") s2
             | none => false) then
      Except.error (Halt.exited 1, st)
    else if (match args.exogenisite with
             | some s1 => !isSubstr (str "Exogeni") s1
             | none => false) then
      Except.error (Halt.exited 1, st)
    else
      let (resp, st) := remoteCallT env (RemoteCall.createWorkflow args.mobiushost args.workflowId) st
      if resp.status == 200 then
        bindE (resolve_exo_hints args st) (fun hints st =>
          let (stitchdata, sip, submitSubnet) := hints
          create_phase_ch_storage env fuel args stitchdata sip submitSubnet st)
      else
        Except.ok ((), st)))

/-- The operation dispatch of `main` (source lines 204–407). -/
def main_ops (env : Env) (fuel : Nat) (args : Args) : M Unit := fun st =>
  if args.operation = str "get" then
    let (_, st) := remoteCallT env (RemoteCall.getWorkflow args.mobiushost args.workflowId) st
    Except.ok ((), st)
  else if args.operation = str "delete" then
    let (_, st) := remoteCallT env (RemoteCall.deleteWorkflow args.mobiushost args.workflowId) st
    match args.comethost with
    | some ch =>
      let (_, st) := remoteCallT env (RemoteCall.cometDeleteFamilies ch args.workflowId) st
      Except.ok ((), st)
    | none => Except.ok ((), st)
  else if args.operation = str "create" then
    mainCreate env fuel args st
  else
    Except.error (Halt.exited 1, st)

/-- Whole-process behaviour: run `main` from an empty state; falling off
the end of `main` (an early `return`) or the final `sys.exit(0)` both end
the process with exit code 0. -/
def processRun (env : Env) (fuel : Nat) (args : Args) : Halt × S :=
  match main_ops env fuel args { nCalls := 0, events := [], ipMap := [] } with
  | Except.ok (_, st) => (Halt.exited 0, st)
  | Except.error (h, st) => (h, st)

/-! ### Lemmas about decimal rendering and parsing -/

lemma natToStrAux_zero (f : Nat) : natToStrAux f 0 = [] := by cases f <;> rfl

lemma parseNat_append_digit (xs : Str) (c : Char) :
    parseNat (xs ++ [c]) = 10 * parseNat xs + (c.toNat - 48) := by
  simp [parseNat, List.foldl_append, Nat.mul_comm]

lemma digitChar_toNat {d : Nat} (h : d < 10) : (Char.ofNat (d + 48)).toNat = d + 48 := by
  interval_cases d <;> decide

lemma digitChar_isDigit {d : Nat} (h : d < 10) : (Char.ofNat (d + 48)).isDigit = true := by
  interval_cases d <;> decide

lemma digitChar_ne_zeroChar {d : Nat} (h0 : 0 < d) (h : d < 10) :
    Char.ofNat (d + 48) ≠ '0' := by
  interval_cases d <;> decide

lemma headI_append {p : Str} (s : Str) (hp : p ≠ []) : (p ++ s).headI = p.headI := by
  cases p with
  | nil => exact absurd rfl hp
  | cons a q => rfl

lemma natToStrAux_spec (fuel : Nat) : ∀ n, 0 < n → n ≤ fuel →
    parseNat (natToStrAux fuel n) = n ∧ natToStrAux fuel n ≠ [] ∧
    (∀ c ∈ natToStrAux fuel n, c.isDigit = true) ∧ (natToStrAux fuel n).headI ≠ '0' := by
  induction fuel with
  | zero => intro n hn hle; omega
  | succ f IH =>
    intro n hn hle
    obtain ⟨m, rfl⟩ : ∃ m, n = m + 1 := ⟨n - 1, by omega⟩
    have hunf : natToStrAux (f + 1) (m + 1) =
        natToStrAux f ((m + 1) / 10) ++ [Char.ofNat ((m + 1) % 10 + 48)] := rfl
    have hm10 : (m + 1) % 10 < 10 := Nat.mod_lt _ (by norm_num)
    by_cases hq : (m + 1) / 10 = 0
    · have hlt : m + 1 < 10 := by omega
      have hmod : (m + 1) % 10 = m + 1 := Nat.mod_eq_of_lt hlt
      rw [hunf, hq, natToStrAux_zero]
      refine ⟨?_, by simp, ?_, ?_⟩
      · simp [parseNat, hmod, digitChar_toNat hlt]
      · intro c hc
        simp at hc
        subst hc
        exact digitChar_isDigit hm10
      · simpa [hmod] using digitChar_ne_zeroChar (show 0 < m + 1 by omega) hlt
    · have hqpos : 0 < (m + 1) / 10 := Nat.pos_of_ne_zero hq
      have hqle : (m + 1) / 10 ≤ f := by
        have : (m + 1) / 10 < m + 1 := Nat.div_lt_self (by omega) (by norm_num)
        omega
      obtain ⟨ihp, ihne, ihdig, ihhead⟩ := IH _ hqpos hqle
      rw [hunf]
      refine ⟨?_, by simp, ?_, ?_⟩
      · rw [parseNat_append_digit, ihp, digitChar_toNat hm10]
        omega
      · intro c hc
        rcases List.mem_append.1 hc with h | h
        · exact ihdig c h
        · simp at h
          subst h
          exact digitChar_isDigit hm10
      · rw [headI_append _ ihne]
        exact ihhead

lemma parseNat_natToStr (n : Nat) : parseNat (natToStr n) = n := by
  by_cases h : n = 0
  · subst h; decide
  · unfold natToStr
    rw [if_neg h]
    exact (natToStrAux_spec n n (Nat.pos_of_ne_zero h) le_rfl).1

lemma natToStr_ne_nil (n : Nat) : natToStr n ≠ [] := by
  by_cases h : n = 0
  · subst h; decide
  · unfold natToStr
    rw [if_neg h]
    exact (natToStrAux_spec n n (Nat.pos_of_ne_zero h) le_rfl).2.1

lemma natToStr_all_digit (n : Nat) : ∀ c ∈ natToStr n, c.isDigit = true := by
  by_cases h : n = 0
  · subst h; decide
  · unfold natToStr
    rw [if_neg h]
    exact (natToStrAux_spec n n (Nat.pos_of_ne_zero h) le_rfl).2.2.1

lemma natToStr_no_dot (n : Nat) : ∀ c ∈ natToStr n, c ≠ '.' := by
  intro c hc
  have := natToStr_all_digit n c hc
  intro hdot
  subst hdot
  simp at this

lemma natToStr_small {n : Nat} (h : n < 10) : (natToStr n).length = 1 := by
  interval_cases n <;> decide

lemma natToStr_headI {n : Nat} (h : 10 ≤ n) : (natToStr n).headI ≠ '0' := by
  unfold natToStr
  rw [if_neg (by omega)]
  exact (natToStrAux_spec n n (by omega) le_rfl).2.2.2

lemma validOctet_natToStr (n : Nat) : validOctet (natToStr n) = decide (n ≤ 255) := by
  unfold validOctet
  have h1 : (natToStr n).isEmpty = false := by
    simp [List.isEmpty_iff, natToStr_ne_nil]
  have h2 : (natToStr n).all Char.isDigit = true := by
    simp only [List.all_eq_true]
    exact natToStr_all_digit n
  have h3 : (((natToStr n).length == 1) || ((natToStr n).headI != '0')) = true := by
    rcases Nat.lt_or_ge n 10 with h | h
    · simp [natToStr_small h]
    · simp [natToStr_headI h]
  rw [h1, h2, h3, parseNat_natToStr]
  simp

/-! ### Lemmas about dot-splitting and joining -/

lemma splitDot_cons (c : Char) (rest : Str) :
    splitDot (c :: rest) =
      match splitDot rest with
      | [] => [[c]]
      | p :: ps => if c = '.' then [] :: p :: ps else (c :: p) :: ps := rfl

lemma splitDot_ne_nil (s : Str) : splitDot s ≠ [] := by
  cases s with
  | nil => simp [splitDot]
  | cons c rest =>
    rw [splitDot_cons]
    cases h : splitDot rest with
    | nil => simp
    | cons p ps => by_cases hc : c = '.' <;> simp [hc]

lemma splitDot_append (p : Str) (s : Str) (hp : ∀ c ∈ p, c ≠ '.') :
    splitDot (p ++ s) = (p ++ (splitDot s).headI) :: (splitDot s).tail := by
  induction p with
  | nil =>
    obtain ⟨q, qs, hq⟩ := List.exists_cons_of_ne_nil (splitDot_ne_nil s)
    simp [hq]
  | cons c p' IH =>
    have hc : c ≠ '.' := hp c (by simp)
    have hp' : ∀ x ∈ p', x ≠ '.' := fun x hx => hp x (by simp [hx])
    rw [List.cons_append, splitDot_cons, IH hp']
    simp [hc]

lemma splitDot_noDot (p : Str) (hp : ∀ c ∈ p, c ≠ '.') : splitDot p = [p] := by
  have := splitDot_append p [] hp
  simpa [splitDot] using this

lemma splitDot_sep (p s : Str) (hp : ∀ c ∈ p, c ≠ '.') :
    splitDot (p ++ '.' :: s) = p :: splitDot s := by
  rw [splitDot_append p ('.' :: s) hp]
  have hdot : splitDot ('.' :: s) = [] :: splitDot s := by
    obtain ⟨q, qs, hq⟩ := List.exists_cons_of_ne_nil (splitDot_ne_nil s)
    rw [splitDot_cons, hq]
    simp
  rw [hdot]
  simp

lemma splitDot_renderIP (a b c d : Nat) :
    splitDot (renderIP a b c d) = [natToStr a, natToStr b, natToStr c, natToStr d] := by
  have hjoin : renderIP a b c d =
      natToStr a ++ '.' :: (natToStr b ++ '.' :: (natToStr c ++ '.' :: natToStr d)) := rfl
  rw [hjoin, splitDot_sep _ _ (natToStr_no_dot a), splitDot_sep _ _ (natToStr_no_dot b),
    splitDot_sep _ _ (natToStr_no_dot c), splitDot_noDot _ (natToStr_no_dot d)]

lemma is_valid_renderIP (a b c d : Nat) :
    is_valid_ipv4_address (renderIP a b c d) =
      (decide (a ≤ 255) && decide (b ≤ 255) && decide (c ≤ 255) && decide (d ≤ 255)) := by
  unfold is_valid_ipv4_address
  rw [splitDot_renderIP]
  simp [validOctet_natToStr, Bool.and_assoc]

lemma can_ip_satisfy_range_renderIP (a b c d n : Nat)
    (ha : a ≤ 255) (hb : b ≤ 255) (hc : c ≤ 255) :
    can_ip_satisfy_range (renderIP a b c d) n = decide (d + n ≤ 255) := by
  have h1 : can_ip_satisfy_range (renderIP a b c d) n =
      is_valid_ipv4_address (renderIP a b c (d + n)) := by
    simp only [can_ip_satisfy_range, splitDot_renderIP]
    congr 1
    simp [List.getD, parseNat_natToStr]
    rfl
  rw [h1, is_valid_renderIP]
  simp [ha, hb, hc]

lemma get_next_ip_renderIP (a b c d : Nat) :
    get_next_ip (renderIP a b c d) = renderIP a b c (d + 1) := by
  simp only [get_next_ip, splitDot_renderIP]
  have hget : [natToStr a, natToStr b, natToStr c, natToStr d].getD 3 [] = natToStr d := by
    simp [List.getD]
  rw [hget, parseNat_natToStr]
  rfl

lemma get_next_ip_iter (a b c d : Nat) :
    ∀ n, get_next_ip^[n] (renderIP a b c d) = renderIP a b c (d + n) := by
  intro n
  induction n with
  | zero => simp
  | succ k IH => rw [Function.iterate_succ_apply', IH, get_next_ip_renderIP, Nat.add_assoc]

/-- C7: for every valid IPv4 address `a.b.c.d` (octets at most 255) and
every `n ≥ 0`, `can_ip_satisfy_range` returns true iff `d + n ≤ 255`, and
whenever `d + n ≤ 255`, applying `get_next_ip` `n` times yields
`a.b.c.(d+n)`. -/
theorem c7_can_fit_iff_and_next_iterate (a b c d n : Nat)
    (ha : a ≤ 255) (hb : b ≤ 255) (hc : c ≤ 255) (hd : d ≤ 255) :
    (can_ip_satisfy_range (renderIP a b c d) n = true ↔ d + n ≤ 255) ∧
      (d + n ≤ 255 → get_next_ip^[n] (renderIP a b c d) = renderIP a b c (d + n)) := by
  refine ⟨?_, fun _ => get_next_ip_iter a b c d n⟩
  rw [can_ip_satisfy_range_renderIP a b c d n ha hb hc]
  simp

/-- Witness for C7 at the concrete address `10.0.0.10` with `n = 3`. -/
theorem c7_witness :
    can_ip_satisfy_range (renderIP 10 0 0 10) 3 = true ∧
      get_next_ip^[3] (renderIP 10 0 0 10) = renderIP 10 0 0 13 :=
  ⟨(c7_can_fit_iff_and_next_iterate 10 0 0 10 3 (by decide) (by decide) (by decide)
      (by decide)).1.mpr (by decide),
   (c7_can_fit_iff_and_next_iterate 10 0 0 10 3 (by decide) (by decide) (by decide)
      (by decide)).2 (by decide)⟩

/-- C5 counterexample: at last octet 255 the next-address operation does
not fail; it returns the address string `10.0.0.256` (an out-of-range,
invalid address), so no `AddressSpaceExhausted` failure is raised. -/
theorem c5_counterexample :
    get_next_ip (str "10.0.0.255") = str "10.0.0.256" ∧
      is_valid_ipv4_address (str "10.0.0.256") = false := by decide

/-- C5 (amended): for every address whose last octet is 255, `get_next_ip`
increments unconditionally and returns `a.b.c.256` — an out-of-range
result that is not a valid IPv4 address — rather than failing or wrapping
around to 0. -/
theorem c5_amended_next_overflows (a b c : Nat) :
    get_next_ip (renderIP a b c 255) = renderIP a b c 256 ∧
      is_valid_ipv4_address (renderIP a b c 256) = false := by
  refine ⟨get_next_ip_renderIP a b c 255, ?_⟩
  rw [is_valid_renderIP]
  simp

/-- C8: with a non-null host-name prefix the resolved node name is
`<prefix><count>` when the site contains the exogeni marker and
`<workflowId>-<prefix><count>` otherwise; with a null prefix the
caller's fallback name `Node<count>` is kept. -/
theorem c8_node_naming :
    (∀ env host n0 ipS lE wid mdata count old site ss stn sub fwd st p,
       mdata.hostNamePrefix = some p →
       (create_compute env host n0 ipS lE wid mdata count old site
           ss stn sub fwd st).1.2.1 =
         (if isSubstr (str "Exogeni") site then p ++ natToStr count
          else wid ++ str "-" ++ p ++ natToStr count)) ∧
    (∀ env host ipS lE wid mdata count old site ss stn sub fwd st,
       mdata.hostNamePrefix = none →
       (create_compute env host (str "Node" ++ natToStr count) ipS lE wid mdata count old site
           ss stn sub fwd st).1.2.1 = str "Node" ++ natToStr count) := by
  constructor
  · intro env host n0 ipS lE wid mdata count old site ss stn sub fwd st p hp
    simp [create_compute, remoteCallT, ccName, hp]
  · intro env host ipS lE wid mdata count old site ss stn sub fwd st hp
    simp [create_compute, remoteCallT, ccName, hp]

/-- Witness for C8: prefix `"w"`, counter 3, workflow id `"wf1"`: an
exogeni-family site yields `"w3"`, a chameleon-family site `"wf1-w3"`,
and a null prefix yields `"Node3"`. -/
theorem c8_witness :
    (({ hostNamePrefix := some (str "w"), postBootScript := none, ipAddress := none,
        leaseEnd := none, site := [] } : NodeShape).hostNamePrefix = some (str "w") ∧
      (create_compute { resp := fun _ => { status := 200, requests := [] } } (str "h")
          (str "Node3") none none (str "wf1")
          { hostNamePrefix := some (str "w"), postBootScript := none, ipAddress := none,
            leaseEnd := none, site := [] } 3 (str "NODENAME") (str "Exogeni-X")
          none none none none { nCalls := 0, events := [], ipMap := [] }).1.2.1 = str "w3" ∧
      (create_compute { resp := fun _ => { status := 200, requests := [] } } (str "h")
          (str "Node3") none none (str "wf1")
          { hostNamePrefix := some (str "w"), postBootScript := none, ipAddress := none,
            leaseEnd := none, site := [] } 3 (str "NODENAME") (str "Chameleon-X")
          none none none none { nCalls := 0, events := [], ipMap := [] }).1.2.1 = str "wf1-w3") ∧
      (create_compute { resp := fun _ => { status := 200, requests := [] } } (str "h")
          (str "Node" ++ natToStr 3) none none (str "wf1")
          { hostNamePrefix := none, postBootScript := none, ipAddress := none,
            leaseEnd := none, site := [] } 3 (str "NODENAME") (str "Chameleon-X")
          none none none none { nCalls := 0, events := [], ipMap := [] }).1.2.1 =
        str "Node" ++ natToStr 3 := by
  refine ⟨⟨rfl, ?_, ?_⟩, ?_⟩
  · rw [c8_node_naming.1 _ _ _ _ _ _ _ _ _ _ _ _ _ _ _ (str "w") rfl]
    decide
  · rw [c8_node_naming.1 _ _ _ _ _ _ _ _ _ _ _ _ _ _ _ (str "w") rfl]
    decide
  · exact c8_node_naming.2 _ _ _ _ _ _ 3 _ _ _ _ _ _ _ rfl

/-! ### C4: start-IP range validation happens before any remote call -/

lemma validate_ip_range_none (w : Option Nat) (st : S) :
    validate_ip_range none w st = Except.ok ((), st) := rfl

lemma validate_ip_range_fail (ip : Str) (w : Nat) (st : S)
    (hval : is_valid_ipv4_address ip = true)
    (hfit : can_ip_satisfy_range ip (w + 1) = false) :
    validate_ip_range (some ip) (some w) st = Except.error (Halt.exited 1, st) := by
  simp only [validate_ip_range]
  rw [if_neg (by simp [hval]), if_pos hfit]

/-- An exo start-IP validation whose worker count is present either
accepts (leaving the state unchanged) or exits with code 1. -/
lemma validate_ip_range_cases (ipS : Option Str) (wS : Option Nat)
    (hw : ipS = none ∨ ∃ w, wS = some w) (st : S) :
    validate_ip_range ipS wS st = Except.ok ((), st) ∨
      validate_ip_range ipS wS st = Except.error (Halt.exited 1, st) := by
  cases ipS with
  | none => left; rfl
  | some ip =>
    rcases hw with h | ⟨w, hw⟩
    · exact absurd h (by simp)
    · subst hw
      simp only [validate_ip_range]
      by_cases hv : is_valid_ipv4_address ip = false
      · right; rw [if_pos hv]
      · rw [if_neg hv]
        by_cases hf : can_ip_satisfy_range ip (w + 1) = false
        · right; rw [if_pos hf]
        · left; rw [if_neg hf]

lemma mainCreate_range_fail (env : Env) (fuel : Nat) (args : Args)
    (hexo : args.exoipStart = none ∨ ∃ w, args.exoworkers = some w)
    (hfail :
      (∃ ip w, args.exoipStart = some ip ∧ args.exoworkers = some w ∧
        is_valid_ipv4_address ip = true ∧ can_ip_satisfy_range ip (w + 1) = false) ∨
      (∃ ip w, args.chipStart = some ip ∧ args.chworkers = some w ∧
        is_valid_ipv4_address ip = true ∧ can_ip_satisfy_range ip (w + 1) = false)) :
    mainCreate env fuel args { nCalls := 0, events := [], ipMap := [] } =
      Except.error (Halt.exited 1, { nCalls := 0, events := [], ipMap := [] }) := by
  unfold mainCreate
  by_cases hpres : ((args.exogenisite.isNone && args.chameleonsite.isNone) ||
      (args.exoworkers.isNone && args.chworkers.isNone) ||
      (args.exodatadir.isNone && args.chdatadir.isNone)) = true
  · rw [if_pos hpres]
  · rw [if_neg hpres]
    rcases hfail with ⟨ip, w, hip, hw, hval, hfit⟩ | ⟨ip, w, hip, hw, hval, hfit⟩
    · rw [hip, hw, validate_ip_range_fail ip w _ hval hfit]
      rfl
    · rcases validate_ip_range_cases args.exoipStart args.exoworkers hexo
        { nCalls := 0, events := [], ipMap := [] } with hok | herr
      · rw [hok]
        simp only [bindE]
        rw [hip, hw, validate_ip_range_fail ip w _ hval hfit]
      · rw [herr]
        rfl

/-- C4: for every create invocation in which a supplied start IP cannot
accommodate `workers + 1` addresses within the last octet's range, the
program exits with code 1 with an empty remote-call trace: no remote call
at all (in particular no `create_workflow`) is issued. -/
theorem c4_range_validation_before_any_call (env : Env) (fuel : Nat) (args : Args)
    (hop : args.operation = str "create")
    (hexo : args.exoipStart = none ∨ ∃ w, args.exoworkers = some w)
    (hfail :
      (∃ ip w, args.exoipStart = some ip ∧ args.exoworkers = some w ∧
        is_valid_ipv4_address ip = true ∧ can_ip_satisfy_range ip (w + 1) = false) ∨
      (∃ ip w, args.chipStart = some ip ∧ args.chworkers = some w ∧
        is_valid_ipv4_address ip = true ∧ can_ip_satisfy_range ip (w + 1) = false)) :
    processRun env fuel args = (Halt.exited 1, { nCalls := 0, events := [], ipMap := [] }) := by
  unfold processRun main_ops
  rw [hop]
  rw [if_neg (by decide), if_neg (by decide), if_pos rfl,
    mainCreate_range_fail env fuel args hexo hfail]

/-- Witness for C4: scenario 2 of the spec — start IP `10.0.0.250` with 10
required slots (9 workers + 1) exits 1 with no remote call recorded. -/
theorem c4_witness :
    processRun { resp := fun _ => { status := 200, requests := [] } } 0
      { operation := str "create", exogenisite := none,
        chameleonsite := some (str "Chameleon-X"), exoworkers := none, chworkers := some 9,
        comethost := none, cert := none, key := none, mobiushost := str "mob",
        workflowId := str "wf", exoipStart := none, chipStart := some (str "10.0.0.250"),
        leaseEnd := none, exodatadir := none,
        chdatadir := some { stitch := none, storage := none, master := none,
                            submit := none, worker := none } } =
      (Halt.exited 1, { nCalls := 0, events := [], ipMap := [] }) :=
  c4_range_validation_before_any_call _ _ _ rfl (Or.inl rfl)
    (Or.inr ⟨str "10.0.0.250", 9, rfl, rfl, by decide, by decide⟩)

/-! ### Equation lemmas for symbolic runs -/

lemma create_compute_eq (env : Env) (host n0 : Str) (ipS lE : Option Str) (wid : Str)
    (mdata : NodeShape) (count : Nat) (old site : Str)
    (ss stn sub fwd : Option Str) (st : S) :
    create_compute env host n0 ipS lE wid mdata count old site ss stn sub fwd st =
      ((env.resp st.nCalls,
        ccName mdata n0 wid count site,
        ccShape mdata ipS lE wid old (ccName mdata n0 wid count site) ss stn sub fwd),
       { nCalls := st.nCalls + 1,
         events := st.events ++ [Event.call (RemoteCall.createCompute host wid
           (ccShape mdata ipS lE wid old (ccName mdata n0 wid count site) ss stn sub fwd))
           (env.resp st.nCalls).status],
         ipMap := match ipS with
           | some ip => mapInsert st.ipMap (ccName mdata n0 wid count site) ip
           | none => st.ipMap }) := by
  cases ipS <;> rfl

lemma mapLookup_nil (k : Str) : mapLookup [] k = none := rfl

/-! ### C10: missing exogeni start IP leads to an uncaught KeyError -/

/-- C10: with an exogeni site configured, a storage shape file present
(carrying a `stitchIP` hint and no boot script) and no exogeni start IP,
the run creates the exogeni storage node successfully (one
`create_workflow` call and one `create_compute` call, both status 200)
and then dies with an uncaught `KeyError` computing
`ipMap[exostoragename]`: the storage node was never inserted into the
allocation map because no start IP was supplied to its creation. -/
theorem c10_keyerror_after_exo_storage (env : Env) (fuel : Nat) (args : Args)
    (es : Str) (dd : DataDir) (stor : StorageFile) (sipv : Str)
    (hop : args.operation = str "create")
    (hsite : args.exogenisite = some es)
    (hes : isSubstr (str "Exogeni") es = true)
    (hdd : args.exodatadir = some dd)
    (hstor : dd.storage = some stor)
    (hsip : stor.stitchIP = some sipv)
    (hpbs : stor.shape.postBootScript = none)
    (hnoip : args.exoipStart = none)
    (hch : args.chameleonsite = none)
    (hchip : args.chipStart = none)
    (hwork : ∃ w, args.exoworkers = some w)
    (hcomet : args.comethost = none)
    (hst : ∀ n, (env.resp n).status = 200) :
    ∃ p, processRun env fuel args =
      (Halt.raised PyErr.keyError,
       { nCalls := 2,
         events := [Event.call (RemoteCall.createWorkflow args.mobiushost args.workflowId) 200,
                    Event.call (RemoteCall.createCompute args.mobiushost args.workflowId p) 200],
         ipMap := [] }) := by
  obtain ⟨w, hw⟩ := hwork
  apply Exists.intro
  unfold processRun main_ops
  rw [hop, if_neg (by decide), if_neg (by decide), if_pos rfl]
  unfold mainCreate
  rw [if_neg (by simp [hsite, hw, hdd])]
  rw [hnoip, validate_ip_range_none]
  simp only [bindE]
  rw [hchip, validate_ip_range_none]
  simp only [bindE]
  rw [if_neg (by simp [hcomet]), if_neg (by simp [hch]), if_neg (by simp [hsite, hes])]
  simp only [remoteCallT, hst]
  rw [if_pos (by decide)]
  simp only [bindE, resolve_exo_hints, hsite, hdd, hstor, hsip]
  simp only [create_phase_ch_storage, hch]
  simp only [create_phase_exo_storage, hsite, hdd, provision_storage, hstor, hpbs]
  simp only [provision_storage_create, create_compute_eq, hst]
  rw [if_neg (by decide)]
  simp only [bindE]
  rw [if_neg (by decide)]
  simp only [create_phase_ch_cluster, hch]
  simp only [create_phase_exo_cluster, hsite, hdd, hnoip, mapLookup_nil]
  rfl

/-- Oracle answering every remote call with status 200 and an empty
workflow status. -/
def envAll200 : Env := { resp := fun _ => { status := 200, requests := [] } }

/-- Witness for C10: a concrete exogeni-only run with `storage.json`
present (no boot script, stitchIP hint present) and no `-i1` start IP. -/
theorem c10_witness :
    ∃ p, processRun envAll200 0
      { operation := str "create", exogenisite := some (str "Exogeni-A"),
        chameleonsite := none, exoworkers := some 1, chworkers := none,
        comethost := none, cert := none, key := none, mobiushost := str "mob",
        workflowId := str "wf", exoipStart := none, chipStart := none, leaseEnd := none,
        exodatadir := some
          { stitch := none,
            storage := some
              { shape := { hostNamePrefix := some (str "st"), postBootScript := none,
                           ipAddress := none, leaseEnd := none, site := [] },
                stitchIP := some (str "192.168.1.5") },
            master := none, submit := none, worker := none },
        chdatadir := none } =
      (Halt.raised PyErr.keyError,
       { nCalls := 2,
         events := [Event.call (RemoteCall.createWorkflow (str "mob") (str "wf")) 200,
                    Event.call (RemoteCall.createCompute (str "mob") (str "wf") p) 200],
         ipMap := [] }) :=
  c10_keyerror_after_exo_storage envAll200 0 _ (str "Exogeni-A") _ _ (str "192.168.1.5")
    rfl rfl (by decide) rfl rfl rfl rfl rfl rfl rfl ⟨1, rfl⟩ rfl (fun _ => rfl)

/-! ### Lemmas about token replacement (ordering of the render chain) -/

lemma listReplace_nil (pat rep : Str) : listReplace pat rep [] = [] := rfl

lemma listReplace_cons_pos (pat rep : Str) (c : Char) (rest : Str)
    (h1 : pat ≠ []) (h2 : pat.isPrefixOf (c :: rest) = true) :
    listReplace pat rep (c :: rest) =
      rep ++ listReplace pat rep (List.drop pat.length (c :: rest)) := by
  have hplen : 1 ≤ pat.length := by
    cases hpe : pat with
    | nil => exact absurd hpe h1
    | cons x xs => simp
  show lrGo pat rep (rest.length + 1) (c :: rest) = _
  simp only [lrGo]
  rw [if_pos ⟨h1, h2⟩]
  have hd : (List.drop pat.length (c :: rest)).length ≤ rest.length := by
    simp only [List.length_drop, List.length_cons]
    omega
  rw [lrGo_fuel_irrel pat rep rest.length (List.drop pat.length (c :: rest))
    (List.drop pat.length (c :: rest)).length hd le_rfl]
  rfl

lemma listReplace_cons_neg (pat rep : Str) (c : Char) (rest : Str)
    (h : ¬(pat ≠ [] ∧ pat.isPrefixOf (c :: rest) = true)) :
    listReplace pat rep (c :: rest) = c :: listReplace pat rep rest := by
  show lrGo pat rep (rest.length + 1) (c :: rest) = _
  simp only [lrGo]
  rw [if_neg h]
  rfl

lemma listReplace_cons_nohit (pat rep : Str) (c : Char) (rest : Str)
    (hnp : ¬ pat <+: (c :: rest)) :
    listReplace pat rep (c :: rest) = c :: listReplace pat rep rest := by
  apply listReplace_cons_neg
  rintro ⟨-, h2⟩
  exact hnp (List.isPrefixOf_iff_prefix.1 h2)

/-- Replacing a pattern that does not occur leaves the string unchanged. -/
lemma listReplace_of_absent (pat rep : Str) :
    ∀ s, ¬ pat <:+: s → listReplace pat rep s = s := by
  intro s
  induction s with
  | nil => intro _; exact listReplace_nil pat rep
  | cons c rest IH =>
    intro hni
    have h1 : ¬ pat <+: c :: rest := fun hp => hni (List.infix_cons_iff.2 (Or.inl hp))
    have h2 : ¬ pat <:+: rest := fun hi => hni (List.infix_cons_iff.2 (Or.inr hi))
    rw [listReplace_cons_nohit pat rep c rest h1, IH h2]

/-- An occurrence of `pat` inside `rep ++ R` must lie inside `R` when no
character of `rep` occurs in `pat`. -/
lemma infix_of_infix_append (pat rep R : Str) (hp : pat ≠ [])
    (hdisj : ∀ c ∈ rep, c ∉ pat) (h : pat <:+: rep ++ R) : pat <:+: R := by
  induction rep with
  | nil => simpa using h
  | cons r rep' IH =>
    have hdisj' : ∀ c ∈ rep', c ∉ pat := fun c hc => hdisj c (List.mem_cons_of_mem r hc)
    rw [List.cons_append] at h
    rcases List.infix_cons_iff.1 h with hpre | hinf
    · obtain ⟨p0, pat', rfl⟩ := List.exists_cons_of_ne_nil hp
      rcases List.cons_prefix_cons.1 hpre with ⟨heq, -⟩
      exfalso
      apply hdisj r (List.mem_cons_self r rep')
      rw [← heq]
      exact List.mem_cons_self p0 pat'
    · exact IH hdisj' hinf

/-- A prefix of the replaced string containing no replacement character is
already a prefix of the original string. -/
lemma prefix_listReplace_pullback (pat rep : Str) (hp : pat ≠ []) (hr : rep ≠ []) :
    ∀ n t q, t.length ≤ n → (∀ c ∈ q, c ∉ rep) →
      q <+: listReplace pat rep t → q <+: t := by
  intro n
  induction n with
  | zero =>
    intro t q hlen hdq hq
    have ht : t = [] := List.eq_nil_of_length_eq_zero (Nat.le_zero.1 hlen)
    subst ht
    rwa [listReplace_nil] at hq
  | succ n IH =>
    intro t q hlen hdq hq
    cases t with
    | nil => rwa [listReplace_nil] at hq
    | cons c rest =>
      by_cases hpre : pat.isPrefixOf (c :: rest) = true
      · rw [listReplace_cons_pos pat rep c rest hp hpre] at hq
        cases q with
        | nil => exact List.nil_prefix
        | cons qc q' =>
          obtain ⟨r0, rep', hrep⟩ := List.exists_cons_of_ne_nil hr
          rw [hrep, List.cons_append] at hq
          rcases List.cons_prefix_cons.1 hq with ⟨heq, -⟩
          exfalso
          apply hdq qc (List.mem_cons_self qc q')
          rw [hrep, heq]
          exact List.mem_cons_self r0 rep'
      · rw [listReplace_cons_nohit pat rep c rest
            (fun hpp => hpre (List.isPrefixOf_iff_prefix.2 hpp))] at hq
        cases q with
        | nil => exact List.nil_prefix
        | cons qc q' =>
          rcases List.cons_prefix_cons.1 hq with ⟨heq, hq'⟩
          have hlen' : rest.length ≤ n := by
            simp only [List.length_cons] at hlen
            omega
          have hq'' : q' <+: rest :=
            IH rest q' hlen' (fun x hx => hdq x (List.mem_cons_of_mem qc hx)) hq'
          rw [heq]
          exact List.cons_prefix_cons.2 ⟨rfl, hq''⟩

/-- After replacing every occurrence of `pat` by `rep`, no occurrence of
`pat` remains, provided `rep` is nonempty and shares no character with
`pat`. -/
lemma not_infix_listReplace_self_aux (pat rep : Str) (hp : pat ≠ []) (hr : rep ≠ [])
    (hdisj : ∀ c ∈ rep, c ∉ pat) :
    ∀ n t, t.length ≤ n → ¬ pat <:+: listReplace pat rep t := by
  intro n
  induction n with
  | zero =>
    intro t hlen
    have ht : t = [] := List.eq_nil_of_length_eq_zero (Nat.le_zero.1 hlen)
    subst ht
    rw [listReplace_nil]
    intro h
    exact hp (List.infix_nil.1 h)
  | succ n IH =>
    intro t hlen
    cases t with
    | nil =>
      rw [listReplace_nil]
      intro h
      exact hp (List.infix_nil.1 h)
    | cons c rest =>
      have hplen : 1 ≤ pat.length := by
        cases hpe : pat with
        | nil => exact absurd hpe hp
        | cons x xs => simp
      by_cases hpre : pat.isPrefixOf (c :: rest) = true
      · rw [listReplace_cons_pos pat rep c rest hp hpre]
        intro h
        have hR := infix_of_infix_append pat rep _ hp hdisj h
        have hlen' : (List.drop pat.length (c :: rest)).length ≤ n := by
          simp only [List.length_drop, List.length_cons] at *
          omega
        exact IH _ hlen' hR
      · rw [listReplace_cons_nohit pat rep c rest
            (fun hpp => hpre (List.isPrefixOf_iff_prefix.2 hpp))]
        intro h
        rcases List.infix_cons_iff.1 h with hpre2 | hinf
        · obtain ⟨p0, pat', rfl⟩ := List.exists_cons_of_ne_nil hp
          rcases List.cons_prefix_cons.1 hpre2 with ⟨heq, hq'⟩
          have hdq : ∀ x ∈ pat', x ∉ rep := by
            intro x hx hxr
            exact hdisj x hxr (List.mem_cons_of_mem p0 hx)
          have hpr : pat' <+: rest :=
            prefix_listReplace_pullback (p0 :: pat') rep hp hr rest.length rest pat'
              le_rfl hdq hq'
          apply hpre
          apply List.isPrefixOf_iff_prefix.2
          exact List.cons_prefix_cons.2 ⟨heq, hpr⟩
        · have hlen' : rest.length ≤ n := by
            simp only [List.length_cons] at hlen
            omega
          exact IH rest hlen' hinf

lemma not_infix_listReplace_self (pat rep : Str) (hp : pat ≠ []) (hr : rep ≠ [])
    (hdisj : ∀ c ∈ rep, c ∉ pat) (t : Str) :
    ¬ pat <:+: listReplace pat rep t :=
  not_infix_listReplace_self_aux pat rep hp hr hdisj t.length t le_rfl

/-- Replacing a different pattern cannot introduce an occurrence of `pat`
when the replacement shares no character with `pat`. -/
lemma not_infix_listReplace_other_aux (pat patB repB : Str) (hp : pat ≠ [])
    (hpB : patB ≠ []) (hrB : repB ≠ []) (hdisj : ∀ c ∈ repB, c ∉ pat) :
    ∀ n t, t.length ≤ n → ¬ pat <:+: t → ¬ pat <:+: listReplace patB repB t := by
  intro n
  induction n with
  | zero =>
    intro t hlen hni
    have ht : t = [] := List.eq_nil_of_length_eq_zero (Nat.le_zero.1 hlen)
    subst ht
    rwa [listReplace_nil]
  | succ n IH =>
    intro t hlen hni
    cases t with
    | nil => rwa [listReplace_nil]
    | cons c rest =>
      have hplenB : 1 ≤ patB.length := by
        cases hpe : patB with
        | nil => exact absurd hpe hpB
        | cons x xs => simp
      by_cases hpre : patB.isPrefixOf (c :: rest) = true
      · rw [listReplace_cons_pos patB repB c rest hpB hpre]
        intro h
        have hR := infix_of_infix_append pat repB _ hp hdisj h
        have hdrop : ¬ pat <:+: List.drop patB.length (c :: rest) :=
          fun hi => hni (hi.trans (List.drop_suffix _ _).isInfix)
        have hlen' : (List.drop patB.length (c :: rest)).length ≤ n := by
          simp only [List.length_drop, List.length_cons] at *
          omega
        exact IH _ hlen' hdrop hR
      · rw [listReplace_cons_nohit patB repB c rest
            (fun hpp => hpre (List.isPrefixOf_iff_prefix.2 hpp))]
        intro h
        rcases List.infix_cons_iff.1 h with hpre2 | hinf
        · obtain ⟨p0, patr, rfl⟩ := List.exists_cons_of_ne_nil hp
          rcases List.cons_prefix_cons.1 hpre2 with ⟨heq, hq'⟩
          have hdq : ∀ x ∈ patr, x ∉ repB := by
            intro x hx hxr
            exact hdisj x hxr (List.mem_cons_of_mem p0 hx)
          have hpr : patr <+: rest :=
            prefix_listReplace_pullback patB repB hpB hrB rest.length rest patr
              le_rfl hdq hq'
          apply hni
          apply List.infix_cons_iff.2
          left
          exact List.cons_prefix_cons.2 ⟨heq, hpr⟩
        · have hnir : ¬ pat <:+: rest := fun hi => hni (List.infix_cons_iff.2 (Or.inr hi))
          have hlen' : rest.length ≤ n := by
            simp only [List.length_cons] at hlen
            omega
          exact IH rest hlen' hnir hinf

lemma not_infix_listReplace_other (pat patB repB : Str) (hp : pat ≠ [])
    (hpB : patB ≠ []) (hrB : repB ≠ []) (hdisj : ∀ c ∈ repB, c ∉ pat) (t : Str)
    (hni : ¬ pat <:+: t) : ¬ pat <:+: listReplace patB repB t :=
  not_infix_listReplace_other_aux pat patB repB hp hpB hrB hdisj t.length t le_rfl hni

/-! ### C6: the forward-IP substitution is preferred -/

/-- Modelled from the spec (§4.2, steps 4–5): the same substitution chain
as `renderScript`, but with the forward-IP branch exclusive with the
self-IP branch (an `elif`): the shared peer-address token is substituted
with the forward IP when one is present, and only otherwise with the
node's own start IP. -/
def renderScript_specExclusive (sc : Str) (workflowId oldnodename nodename : Str)
    (submitSubnet forwardIP ipStart subnet defIP storagename : Option Str) : Str :=
  let s := listReplace (str "WORKFLOW") workflowId sc
  let s := listReplace oldnodename nodename s
  let s := listReplace (str "SUBMIT") (pyStr submitSubnet) s
  let s := match forwardIP with
    | some f =>
        let s := listReplace (str "IPADDR") f s
        match subnet with
        | some sn => listReplace (str "SUBNET") sn s
        | none => s
    | none =>
        match ipStart with
        | some ip =>
            let s := listReplace (str "IPADDR") ip s
            match subnet with
            | some sn => listReplace (str "SUBNET") sn s
            | none => s
        | none => s
  let s := match defIP with
    | some d => listReplace (str "REPLACEIP") d s
    | none => s
  match storagename with
  | some stn => listReplace (str "STORAGENODE") stn s
  | none => s

/-- C6: when both a forward IP and a start IP are present, the rendered
script substitutes the shared `IPADDR` token with the forward IP and the
start-IP branch has no effect: the code's render chain coincides with the
spec's exclusive (`elif`) chain.  The hypotheses say that the forward IP
and the subnet value are nonempty and contain no character of the tokens
they could re-introduce (true of all dotted-quad / CIDR strings). -/
theorem c6_forward_ip_preferred (sc wid old new : Str) (ss : Option Str)
    (f ip : Str) (sub defIP stn : Option Str)
    (hf1 : f ≠ []) (hf2 : ∀ c ∈ f, c ∉ str "IPADDR")
    (hsub : ∀ sn, sub = some sn →
      sn ≠ [] ∧ (∀ c ∈ sn, c ∉ str "IPADDR") ∧ (∀ c ∈ sn, c ∉ str "SUBNET")) :
    renderScript sc wid old new ss (some f) (some ip) sub defIP stn =
      renderScript_specExclusive sc wid old new ss (some f) (some ip) sub defIP stn := by
  have hIP : (str "IPADDR") ≠ ([] : Str) := by decide
  have hSUB : (str "SUBNET") ≠ ([] : Str) := by decide
  cases sub with
  | none =>
    simp only [renderScript, renderScript_specExclusive]
    rw [listReplace_of_absent (str "IPADDR") ip _
      (not_infix_listReplace_self (str "IPADDR") f hIP hf1 hf2 _)]
  | some sn =>
    obtain ⟨hsn1, hsn2, hsn3⟩ := hsub sn rfl
    simp only [renderScript, renderScript_specExclusive]
    rw [listReplace_of_absent (str "IPADDR") ip _
      (not_infix_listReplace_other (str "IPADDR") (str "SUBNET") sn hIP hSUB hsn1 hsn2 _
        (not_infix_listReplace_self (str "IPADDR") f hIP hf1 hf2 _))]
    rw [listReplace_of_absent (str "SUBNET") sn _
      (not_infix_listReplace_self (str "SUBNET") sn hSUB hsn1 hsn3 _)]

/-- Witness for C6 at a concrete template containing the `IPADDR` token,
forward IP `1.2.3.4`, start IP `9.9.9.9`, subnet `10.0.0.0/24`: the token
ends up as the forward IP. -/
theorem c6_witness :
    renderScript (str "route IPADDR via SUBNET") (str "wf") (str "NODENAME") (str "n0")
        none (some (str "1.2.3.4")) (some (str "9.9.9.9")) (some (str "10.0.0.0/24"))
        none none =
      renderScript_specExclusive (str "route IPADDR via SUBNET") (str "wf")
        (str "NODENAME") (str "n0") none (some (str "1.2.3.4")) (some (str "9.9.9.9"))
        (some (str "10.0.0.0/24")) none none ∧
    renderScript (str "route IPADDR via SUBNET") (str "wf") (str "NODENAME") (str "n0")
        none (some (str "1.2.3.4")) (some (str "9.9.9.9")) (some (str "10.0.0.0/24"))
        none none = str "route 1.2.3.4 via 10.0.0.0/24" :=
  ⟨c6_forward_ip_preferred (str "route IPADDR via SUBNET") (str "wf") (str "NODENAME")
      (str "n0") none (str "1.2.3.4") (str "9.9.9.9") (some (str "10.0.0.0/24")) none none
      (by decide) (by decide)
      (fun sn hsn => by
        cases hsn
        exact ⟨by decide, by decide, by decide⟩),
   by decide⟩

/-! ### C3: the stitching coordinator's polling discipline -/

/-- Trace of `k` poll iterations starting at remote-call index `n0`: each
iteration fetches the workflow and sleeps 5 seconds. -/
def pollTrace (env : Env) (h w : Str) (n0 : Nat) : Nat → List Event
  | 0 => []
  | k + 1 =>
      Event.call (RemoteCall.getWorkflow h w) (env.resp n0).status ::
        Event.sleep 5 :: pollTrace env h w (n0 + 1) k

/-- The stitch target's observed state after `i` polls (poll `j` consults
the oracle at call index `n0 + j` and rescans on status 200). -/
def statusAfter (env : Env) (target : Str) (n0 : Nat) (st0 : Option Str) : Nat → Option Str
  | 0 => st0
  | i + 1 =>
      let prev := statusAfter env target n0 st0 i
      if (env.resp (n0 + i)).status == 200 then
        scanStitchState target (env.resp (n0 + i)).requests prev
      else prev

lemma statusAfter_shift (env : Env) (target : Str) (n0 : Nat) (st0 : Option Str) :
    ∀ i, statusAfter env target (n0 + 1) (statusAfter env target n0 st0 1) i =
      statusAfter env target n0 st0 (i + 1) := by
  intro i
  induction i with
  | zero => rfl
  | succ i IH =>
    show (if (env.resp (n0 + 1 + i)).status == 200 then
        scanStitchState target (env.resp (n0 + 1 + i)).requests
          (statusAfter env target (n0 + 1) (statusAfter env target n0 st0 1) i)
      else statusAfter env target (n0 + 1) (statusAfter env target n0 st0 1) i) = _
    have hn : n0 + 1 + i = n0 + (i + 1) := by omega
    rw [IH, hn]
    rfl

lemma stitch_wait_spec (env : Env) (h w : Str) (sd : StitchData) :
    ∀ k fuel (st0 : Option Str) (st : S),
      (∀ i, i < k → statusAfter env sd.target st.nCalls st0 i ≠ some (str "Active")) →
      statusAfter env sd.target st.nCalls st0 k = some (str "Active") →
      k ≤ fuel →
      stitch_wait env h w (some sd) fuel st0 st =
        Except.ok ((),
          ⟨st.nCalls + k, st.events ++ pollTrace env h w st.nCalls k, st.ipMap⟩) := by
  intro k
  induction k with
  | zero =>
    intro fuel st0 st _ hk _
    have hst0 : st0 = some (str "Active") := hk
    subst hst0
    have hcond : ((some (str "Active") : Option Str) == some (str "Active")) = true := by decide
    cases fuel with
    | zero =>
      simp only [stitch_wait]
      rw [if_pos hcond]
      cases st
      simp [pollTrace]
    | succ f =>
      simp only [stitch_wait]
      rw [if_pos hcond]
      cases st
      simp [pollTrace]
  | succ k IH =>
    intro fuel st0 st hlt hk hfuel
    have h0 : st0 ≠ some (str "Active") := hlt 0 (Nat.succ_pos k)
    obtain ⟨f, rfl⟩ : ∃ f, fuel = f + 1 := ⟨fuel - 1, by omega⟩
    simp only [stitch_wait]
    rw [if_neg (by simpa using h0)]
    simp only [remoteCallT, pySleepT]
    have harg : (if (env.resp st.nCalls).status == 200 then
        scanStitchState sd.target (env.resp st.nCalls).requests st0 else st0) =
        statusAfter env sd.target st.nCalls st0 1 := rfl
    rw [harg]
    have hIH := IH f (statusAfter env sd.target st.nCalls st0 1)
      ⟨st.nCalls + 1, st.events ++ [Event.call (RemoteCall.getWorkflow h w)
          (env.resp st.nCalls).status, Event.sleep 5], st.ipMap⟩
      (by
        intro i hi
        show statusAfter env sd.target (st.nCalls + 1) _ i ≠ _
        rw [statusAfter_shift]
        exact hlt (i + 1) (by omega))
      (by
        show statusAfter env sd.target (st.nCalls + 1) _ k = _
        rw [statusAfter_shift]
        exact hk)
      (by omega)
    rw [show st.events ++ [Event.call (RemoteCall.getWorkflow h w)
        (env.resp st.nCalls).status] ++ [Event.sleep 5] =
        st.events ++ [Event.call (RemoteCall.getWorkflow h w)
        (env.resp st.nCalls).status, Event.sleep 5] by simp]
    rw [hIH]
    have hn : st.nCalls + 1 + k = st.nCalls + (k + 1) := by omega
    rw [List.append_assoc, hn]
    rfl

/-- C3: with a chameleon VLAN detected and an exogeni site configured, the
stitching coordinator polls the workflow exactly until the stitch
target's observed state becomes `"Active"` (the state after `k` polls),
sleeping 5 seconds after every poll; it then sleeps a single fixed 60
seconds and submits exactly one stitch-port request whose `tag` field is
the VLAN value. -/
theorem c3_poll_until_active_then_single_stitch (env : Env) (fuel : Nat)
    (h w exosite : Str) (exodd : Option DataDir) (vlan : Str) (sd : StitchData)
    (st0 : Option Str) (k : Nat) (st : S)
    (hlt : ∀ i, i < k → statusAfter env sd.target st.nCalls st0 i ≠ some (str "Active"))
    (hk : statusAfter env sd.target st.nCalls st0 k = some (str "Active"))
    (hfuel : k ≤ fuel) :
    stitch_phase env fuel h w (some exosite) exodd (some vlan) st0 (some sd) st =
      Except.ok ((), ⟨st.nCalls + k + 1,
        st.events ++ pollTrace env h w st.nCalls k ++
          [Event.sleep 60,
           Event.call (RemoteCall.createStitchport h w { sd with tag := some vlan })
             ((env.resp (st.nCalls + k)).status)], st.ipMap⟩) := by
  simp only [stitch_phase]
  rw [if_pos (by simp)]
  rw [stitch_wait_spec env h w sd k fuel st0 st hlt hk hfuel]
  simp only [pySleepT, perform_stitch, remoteCallT]
  rw [List.append_assoc (st.events ++ pollTrace env h w st.nCalls k)]
  rfl

/-- One exogeni site request holding the stitch target `tgt` in state
`stt`, for the C3 witness oracle. -/
def c3req (stt : String) : SiteReq :=
  ⟨str "Exogeni-B", none, [⟨str "sl", [⟨str "tgt", str stt⟩]⟩]⟩

/-- Oracle for the C3 witness: the exogeni stitch target `tgt` is
`Pending` on the first poll and `Active` on the second. -/
def c3env : Env :=
  ⟨fun n =>
    if n = 0 then ⟨200, [c3req "Pending"]⟩
    else if n = 1 then ⟨200, [c3req "Active"]⟩
    else ⟨200, []⟩⟩

/-- Witness for C3: VLAN `"17"`, target Active after 2 polls — exactly two
(poll, 5-second sleep) pairs, one 60-second sleep, one stitch-port request
tagged `"17"`. -/
theorem c3_witness :
    stitch_phase c3env 2 (str "mob") (str "wf") (some (str "Exogeni-B")) none
      (some (str "17")) (some (str "Pending"))
      (some { stitchIP := str "1.1.1.1", target := str "tgt", tag := none })
      ⟨0, [], []⟩ =
    Except.ok ((), ⟨3,
      [Event.call (RemoteCall.getWorkflow (str "mob") (str "wf")) 200,
       Event.sleep 5,
       Event.call (RemoteCall.getWorkflow (str "mob") (str "wf")) 200,
       Event.sleep 5,
       Event.sleep 60,
       Event.call (RemoteCall.createStitchport (str "mob") (str "wf")
         { stitchIP := str "1.1.1.1", target := str "tgt", tag := some (str "17") }) 200],
      []⟩) :=
  (c3_poll_until_active_then_single_stitch c3env 2 (str "mob") (str "wf")
      (str "Exogeni-B") none (str "17")
      { stitchIP := str "1.1.1.1", target := str "tgt", tag := none }
      (some (str "Pending")) 2 ⟨0, [], []⟩
      (by
        intro i hi
        interval_cases i
        · decide
        · decide)
      (by decide) (by decide)).trans (by decide)

/-! ### C9: the worker shape object is shared across the worker loop -/

lemma provision_workers_zero (env : Env) (h w : Str) (lE : Option Str) (site : Str)
    (stn sub fwd ss : Option Str) (wdata : NodeShape) (old : Str) (ipS : Option Str)
    (count : Nat) (st : S) :
    provision_workers env h w lE site stn sub fwd ss 0 wdata old ipS count st =
      ((true, count), st) := rfl

lemma provision_workers_succ_eq (env : Env) (h w : Str) (lE : Option Str) (site : Str)
    (stn sub fwd ss : Option Str) (rem : Nat) (wdata : NodeShape) (old : Str)
    (ipS : Option Str) (count : Nat) (st : S) :
    provision_workers env h w lE site stn sub fwd ss (rem + 1) wdata old ipS count st =
      (match create_compute env h (str "Node" ++ natToStr count) (ipS.map get_next_ip)
          lE w wdata count old site ss stn sub fwd st with
       | ((resp, nodename, wdata'), st') =>
          if resp.status ≠ 200 then
            ((false, count), (remoteCallT env (RemoteCall.deleteWorkflow h w) st').2)
          else
            provision_workers env h w lE site stn sub fwd ss rem wdata' nodename
              (ipS.map get_next_ip) (count + 1) st') := rfl

/-- C9: in the worker loop, worker `k+1`'s submitted payload is obtained
by mutating worker `k`'s already-submitted payload in place (the single
shared `worker.json` object), not a fresh copy of the template: the second
payload below is `ccShape` applied to the first payload `p0` — whose
`postBootScript` is worker 0's already-rendered script — so the
unconditional token substitutions act on an already-substituted script. -/
theorem c9_worker_shape_shared (env : Env) (h w : Str) (lE : Option Str) (site : Str)
    (stn sub fwd ss : Option Str) (wdata : NodeShape) (old : Str) (ipS : Option Str)
    (count : Nat) (st : S)
    (hst : ∀ n, (env.resp n).status = 200) :
    (provision_workers env h w lE site stn sub fwd ss 2 wdata old ipS count st).1 =
        (true, count + 2) ∧
      (provision_workers env h w lE site stn sub fwd ss 2 wdata old ipS count st).2.events =
        st.events ++
          [Event.call (RemoteCall.createCompute h w
             (ccShape wdata (ipS.map get_next_ip) lE w old
               (ccName wdata (str "Node" ++ natToStr count) w count site)
               ss stn sub fwd)) 200,
           Event.call (RemoteCall.createCompute h w
             (ccShape
               (ccShape wdata (ipS.map get_next_ip) lE w old
                 (ccName wdata (str "Node" ++ natToStr count) w count site)
                 ss stn sub fwd)
               ((ipS.map get_next_ip).map get_next_ip) lE w
               (ccName wdata (str "Node" ++ natToStr count) w count site)
               (ccName
                 (ccShape wdata (ipS.map get_next_ip) lE w old
                   (ccName wdata (str "Node" ++ natToStr count) w count site)
                   ss stn sub fwd)
                 (str "Node" ++ natToStr (count + 1)) w (count + 1) site)
               ss stn sub fwd)) 200] := by
  have h200 : ¬((200 : Nat) ≠ 200) := by decide
  have e2 : (2 : Nat) = 1 + 1 := rfl
  have e1 : (1 : Nat) = 0 + 1 := rfl
  constructor
  · rw [e2, provision_workers_succ_eq, create_compute_eq]
    simp only [hst]
    rw [if_neg h200, e1, provision_workers_succ_eq, create_compute_eq]
    simp only [hst]
    rw [if_neg h200, provision_workers_zero]
  · rw [e2, provision_workers_succ_eq, create_compute_eq]
    simp only [hst]
    rw [if_neg h200, e1, provision_workers_succ_eq, create_compute_eq]
    simp only [hst]
    rw [if_neg h200, provision_workers_zero]
    simp [List.append_assoc]

/-- Witness for C9: template `"echo WORKFLOW NODENAME"`, two workers.
Worker 0 submits `"echo wf Node0"`; worker 1 re-renders that same object
and submits `"echo wf Node1"` — while a fresh render of the original
template with worker 1's parameters would still contain `NODENAME`. -/
theorem c9_witness :
    (provision_workers envAll200 (str "mob") (str "wf") none (str "Chameleon-X")
        none none none none 2
        { hostNamePrefix := none, postBootScript := some (str "echo WORKFLOW NODENAME"),
          ipAddress := none, leaseEnd := none, site := str "Chameleon-X" }
        (str "NODENAME") none 0 ⟨0, [], []⟩).2.events =
      [Event.call (RemoteCall.createCompute (str "mob") (str "wf")
         { hostNamePrefix := none, postBootScript := some (str "echo wf Node0"),
           ipAddress := none, leaseEnd := none, site := str "Chameleon-X" }) 200,
       Event.call (RemoteCall.createCompute (str "mob") (str "wf")
         { hostNamePrefix := none, postBootScript := some (str "echo wf Node1"),
           ipAddress := none, leaseEnd := none, site := str "Chameleon-X" }) 200] ∧
    (ccShape
        { hostNamePrefix := none, postBootScript := some (str "echo WORKFLOW NODENAME"),
          ipAddress := none, leaseEnd := none, site := str "Chameleon-X" }
        none none (str "wf") (str "Node0") (str "Node1")
        none none none none).postBootScript = some (str "echo wf NODENAME") :=
  ⟨((c9_worker_shape_shared envAll200 (str "mob") (str "wf") none (str "Chameleon-X")
      none none none none
      { hostNamePrefix := none, postBootScript := some (str "echo WORKFLOW NODENAME"),
        ipAddress := none, leaseEnd := none, site := str "Chameleon-X" }
      (str "NODENAME") none 0 ⟨0, [], []⟩ (fun _ => rfl)).2).trans (by decide),
   by decide⟩

/-! ### C2: single-chameleon-site end-to-end scenario -/

lemma natToStr_single {n : Nat} (h : n < 10) : natToStr n = [Char.ofNat (n + 48)] := by
  interval_cases n <;> decide

/-- Every resolved node name ends in the decimal digit of its counter
(counters below 10), whatever the shape's prefix. -/
lemma ccName_last_digit (mdata : NodeShape) (wid : Str) (count : Nat) (site : Str)
    (h : count < 10) :
    ∃ base, ccName mdata (str "Node" ++ natToStr count) wid count site =
      base ++ [Char.ofNat (count + 48)] := by
  cases hpre : mdata.hostNamePrefix with
  | none =>
    refine ⟨str "Node", ?_⟩
    simp [ccName, hpre, natToStr_single h]
  | some p =>
    by_cases he : isSubstr (str "Exogeni") site = true
    · refine ⟨p, ?_⟩
      simp [ccName, hpre, he, natToStr_single h]
    · refine ⟨wid ++ str "-" ++ p, ?_⟩
      simp [ccName, hpre, he, natToStr_single h, List.append_assoc]

lemma ne_of_last_digit {b1 b2 : Str} {c1 c2 : Char} (hne : c1 ≠ c2) :
    b1 ++ [c1] ≠ b2 ++ [c2] := by
  intro h
  have h2 := congrArg List.reverse h
  simp [List.reverse_append] at h2
  exact hne h2.1

lemma mapInsert_new (m : IPMap) (k v : Str) (h : mapContains m k = false) :
    mapInsert m k v = m ++ [(k, v)] := by
  simp [mapInsert, h]

lemma ccShape_ipAddress_some (mdata : NodeShape) (ip : Str) (lE : Option Str)
    (wid old new : Str) (ss stn sub fwd : Option Str) :
    (ccShape mdata (some ip) lE wid old new ss stn sub fwd).ipAddress = some ip := by
  cases mdata with
  | mk f1 f2 f3 f4 f5 => cases lE <;> cases f2 <;> rfl

/-- Events that talk to the context-exchange (COMET) service. -/
def isCometEvent : Event → Bool
  | Event.call (RemoteCall.cometUpdateFamily _ _ _ _ _) _ => true
  | Event.call (RemoteCall.cometDeleteFamilies _ _) _ => true
  | _ => false

/-- The post-boot-script rendering of `provision_storage` (source lines
438–444) applied to the loaded storage shape. -/
def storageShapeRender (stor : StorageFile) (site : Str) (ip : Str) (sip : Option Str) :
    NodeShape :=
  let stdata := { stor.shape with site := site }
  match stdata.postBootScript with
  | some sc =>
      let sc := listReplace (str "CIDR") (get_cidr_escape ip) sc
      let sc := match sip with
        | some v => listReplace (str "SIP") v sc
        | none => sc
      { stdata with postBootScript := some sc }
  | none => stdata

lemma provision_storage_some_ip (env : Env) (h w : Str) (lE : Option Str) (dd : DataDir)
    (site : Str) (count : Nat) (ip : Str) (ss sip es : Option Str) (stor : StorageFile)
    (hstor : dd.storage = some stor) (st : S) :
    provision_storage env h w lE dd site count (some ip) ss sip es st =
      Except.ok (provision_storage_create env h w lE site count (some ip) ss es
        (storageShapeRender stor site ip sip) st) := by
  simp only [provision_storage, hstor]
  cases hpb : stor.shape.postBootScript with
  | none => simp [storageShapeRender, hpb]
  | some sc => simp [storageShapeRender, hpb]

lemma provision_storage_create_200 (env : Env) (h w : Str) (lE : Option Str) (site : Str)
    (count : Nat) (ipS ss es : Option Str) (stdata : NodeShape) (st : S)
    (hst : (env.resp st.nCalls).status = 200) :
    provision_storage_create env h w lE site count ipS ss es stdata st =
      ((true, count + 1, some (ccName stdata (str "Node" ++ natToStr count) w count site)),
       (create_compute env h (str "Node" ++ natToStr count) ipS lE w stdata count
         (str "NODENAME") site ss none none es st).2) := by
  simp only [provision_storage_create, create_compute_eq, hst]
  rw [if_neg (by decide)]

/-- Node names with distinct single-digit counters are distinct, whatever
the shapes' prefixes: both names end in the counter's digit. -/
lemma ccName_ne (mdA mdB : NodeShape) (wid : Str) (cA cB : Nat) (site : Str)
    (hA : cA < 10) (hB : cB < 10) (hne : cA ≠ cB) :
    ccName mdA (str "Node" ++ natToStr cA) wid cA site ≠
      ccName mdB (str "Node" ++ natToStr cB) wid cB site := by
  obtain ⟨b1, h1⟩ := ccName_last_digit mdA wid cA site hA
  obtain ⟨b2, h2⟩ := ccName_last_digit mdB wid cB site hB
  rw [h1, h2]
  refine ne_of_last_digit ?_
  intro h
  have h3 := congrArg Char.toNat h
  rw [digitChar_toNat hA, digitChar_toNat hB] at h3
  omega

/-- Five insertions with pairwise-distinct keys build the five-entry
association list in insertion order. -/
lemma mapInsert_chain5 (n0 n1 n2 n3 n4 a0 a1 a2 a3 a4 : Str)
    (h01 : n0 ≠ n1) (h02 : n0 ≠ n2) (h03 : n0 ≠ n3) (h04 : n0 ≠ n4)
    (h12 : n1 ≠ n2) (h13 : n1 ≠ n3) (h14 : n1 ≠ n4)
    (h23 : n2 ≠ n3) (h24 : n2 ≠ n4) (h34 : n3 ≠ n4) :
    mapInsert (mapInsert (mapInsert (mapInsert (mapInsert [] n0 a0) n1 a1) n2 a2) n3 a3) n4 a4
      = [(n0, a0), (n1, a1), (n2, a2), (n3, a3), (n4, a4)] := by
  simp [mapInsert, mapContains, h01, h02, h03, h04, h12, h13, h14, h23, h24, h34]

/-- The master-IP advance guard with both operands present (source line 491). -/
lemma option_if_some {γ : Type} (a b : Str) (t e : γ) :
    (if (some a).isSome && (some b).isSome then t else e) = t := rfl

/-- C2: a create run with only a chameleon-family site, 2 workers, start IP
10.0.0.10, no comet host and all four shape files present, every remote
creation answering 200, exits with code 0 after exactly one
`create_workflow` call, five `create_compute` calls whose payloads carry
the IPs 10.0.0.10–10.0.0.14 in order (storage, master, submit, the two
workers) and one final `get_workflow` call; the allocation map ends with
exactly those five entries; and no context-exchange (COMET) call is made. -/
theorem c2_single_chameleon_end_to_end (env : Env) (fuel : Nat) (args : Args)
    (site : Str) (dd : DataDir) (stor : StorageFile) (m sb wk : NodeShape)
    (hop : args.operation = str "create")
    (hsite : args.chameleonsite = some site)
    (hch : isSubstr (str "Chameleon") site = true)
    (hexosite : args.exogenisite = none)
    (hexoip : args.exoipStart = none)
    (hdd : args.chdatadir = some dd)
    (hstor : dd.storage = some stor)
    (hmf : dd.master = some m)
    (hsf : dd.submit = some sb)
    (hwf : dd.worker = some wk)
    (hw : args.chworkers = some 2)
    (hip : args.chipStart = some (str "10.0.0.10"))
    (hcomet : args.comethost = none)
    (hst : ∀ n, (env.resp n).status = 200) :
    ∃ st' p0 p1 p2 p3 p4 n0 n1 n2 n3 n4,
      processRun env fuel args = (Halt.exited 0, st') ∧
      st'.events =
        [Event.call (RemoteCall.createWorkflow args.mobiushost args.workflowId) 200,
         Event.call (RemoteCall.createCompute args.mobiushost args.workflowId p0) 200,
         Event.call (RemoteCall.createCompute args.mobiushost args.workflowId p1) 200,
         Event.call (RemoteCall.createCompute args.mobiushost args.workflowId p2) 200,
         Event.call (RemoteCall.createCompute args.mobiushost args.workflowId p3) 200,
         Event.call (RemoteCall.createCompute args.mobiushost args.workflowId p4) 200,
         Event.call (RemoteCall.getWorkflow args.mobiushost args.workflowId) 200] ∧
      p0.ipAddress = some (str "10.0.0.10") ∧
      p1.ipAddress = some (str "10.0.0.11") ∧
      p2.ipAddress = some (str "10.0.0.12") ∧
      p3.ipAddress = some (str "10.0.0.13") ∧
      p4.ipAddress = some (str "10.0.0.14") ∧
      st'.ipMap = [(n0, str "10.0.0.10"), (n1, str "10.0.0.11"), (n2, str "10.0.0.12"),
                   (n3, str "10.0.0.13"), (n4, str "10.0.0.14")] ∧
      st'.ipMap.length = 5 ∧
      st'.events.all (fun e => !isCometEvent e) = true := by
  have g1 : get_next_ip (str "10.0.0.10") = str "10.0.0.11" := by decide
  have g2 : get_next_ip (str "10.0.0.11") = str "10.0.0.12" := by decide
  have g3 : get_next_ip (str "10.0.0.12") = str "10.0.0.13" := by decide
  have g4 : get_next_ip (str "10.0.0.13") = str "10.0.0.14" := by decide
  have h200 : ¬((200 : Nat) ≠ 200) := by decide
  have e2 : (2 : Nat) = 1 + 1 := rfl
  have e1 : (1 : Nat) = 0 + 1 := rfl
  have hv : ∀ stx, validate_ip_range (some (str "10.0.0.10")) (some 2) stx =
      Except.ok ((), stx) := fun _ => rfl
  apply Exists.intro; apply Exists.intro; apply Exists.intro; apply Exists.intro
  apply Exists.intro; apply Exists.intro; apply Exists.intro; apply Exists.intro
  apply Exists.intro; apply Exists.intro; apply Exists.intro
  refine ⟨?_, ?_, ?_, ?_, ?_, ?_, ?_, ?_, ?_, ?_⟩
  · unfold processRun main_ops
    rw [hop, if_neg (by decide), if_neg (by decide), if_pos rfl]
    unfold mainCreate
    rw [if_neg (by simp [hsite, hw, hdd])]
    rw [hexoip, validate_ip_range_none]
    simp only [bindE]
    rw [hip, hw, hv]
    simp only [bindE]
    rw [if_neg (by simp [hcomet]), if_neg (by simp [hsite, hch]), if_neg (by simp [hexosite])]
    simp only [remoteCallT, hst]
    rw [if_pos (by decide)]
    simp only [bindE, resolve_exo_hints, hexosite]
    simp only [create_phase_ch_storage, hsite, hdd, hexoip, hip, Option.map_none']
    rw [provision_storage_some_ip _ _ _ _ _ _ _ _ _ _ _ _ hstor]
    rw [provision_storage_create_200 _ _ _ _ _ _ _ _ _ _ _ (hst _)]
    simp only [bindE, create_compute_eq, hst]
    rw [if_neg (by decide)]
    simp only [create_phase_exo_storage, hexosite]
    simp only [create_phase_ch_cluster, hsite, hdd, hexoip, hip, hw, Option.map_none']
    simp only [provision_condor_cluster, hmf, hsf, hwf, Option.map_some', option_if_some]
    simp only [g1, create_compute_eq, hst]
    rw [if_neg h200]
    simp only [provision_cluster_submit, Option.map_some', g2, create_compute_eq, hst]
    rw [if_neg h200]
    simp only [provision_cluster_workers]
    rw [e2, provision_workers_succ_eq, create_compute_eq]
    simp only [hst, Option.map_some', g3]
    rw [if_neg h200, e1, provision_workers_succ_eq, create_compute_eq]
    simp only [hst, Option.map_some', g4]
    rw [if_neg h200, provision_workers_zero]
    simp only [bindE]
    rw [if_neg (by simp)]
    simp only [create_phase_exo_cluster, hexosite]
    simp only [create_phase_final, remoteCallT, hst, hcomet]
    simp only [stitch_phase]
    rfl
  · rfl
  · exact ccShape_ipAddress_some _ _ _ _ _ _ _ _ _ _
  · exact ccShape_ipAddress_some _ _ _ _ _ _ _ _ _ _
  · exact ccShape_ipAddress_some _ _ _ _ _ _ _ _ _ _
  · exact ccShape_ipAddress_some _ _ _ _ _ _ _ _ _ _
  · exact ccShape_ipAddress_some _ _ _ _ _ _ _ _ _ _
  · refine mapInsert_chain5 _ _ _ _ _ _ _ _ _ _ ?_ ?_ ?_ ?_ ?_ ?_ ?_ ?_ ?_ ?_ <;>
      exact ccName_ne _ _ _ _ _ _ (by decide) (by decide) (by decide)
  · refine Eq.trans (congrArg List.length
      (mapInsert_chain5 _ _ _ _ _ _ _ _ _ _ ?_ ?_ ?_ ?_ ?_ ?_ ?_ ?_ ?_ ?_)) rfl <;>
      exact ccName_ne _ _ _ _ _ _ (by decide) (by decide) (by decide)
  · rfl

/-- Witness for C2: a concrete chameleon-only create run (2 workers, start
IP 10.0.0.10, no comet host, all four shape files present, every remote
call answering 200). -/
theorem c2_witness :
    ∃ st' p0 p1 p2 p3 p4 n0 n1 n2 n3 n4,
      processRun envAll200 0
        { operation := str "create", exogenisite := none,
          chameleonsite := some (str "Chameleon-A"), exoworkers := none,
          chworkers := some 2, comethost := none, cert := none, key := none,
          mobiushost := str "mob", workflowId := str "wf", exoipStart := none,
          chipStart := some (str "10.0.0.10"), leaseEnd := none, exodatadir := none,
          chdatadir := some
            { stitch := none,
              storage := some
                { shape := { hostNamePrefix := none, postBootScript := none,
                             ipAddress := none, leaseEnd := none, site := [] },
                  stitchIP := none },
              master := some { hostNamePrefix := none, postBootScript := none,
                               ipAddress := none, leaseEnd := none, site := [] },
              submit := some { hostNamePrefix := none, postBootScript := none,
                               ipAddress := none, leaseEnd := none, site := [] },
              worker := some { hostNamePrefix := none, postBootScript := none,
                               ipAddress := none, leaseEnd := none, site := [] } } } =
        (Halt.exited 0, st') ∧
      st'.events =
        [Event.call (RemoteCall.createWorkflow (str "mob") (str "wf")) 200,
         Event.call (RemoteCall.createCompute (str "mob") (str "wf") p0) 200,
         Event.call (RemoteCall.createCompute (str "mob") (str "wf") p1) 200,
         Event.call (RemoteCall.createCompute (str "mob") (str "wf") p2) 200,
         Event.call (RemoteCall.createCompute (str "mob") (str "wf") p3) 200,
         Event.call (RemoteCall.createCompute (str "mob") (str "wf") p4) 200,
         Event.call (RemoteCall.getWorkflow (str "mob") (str "wf")) 200] ∧
      p0.ipAddress = some (str "10.0.0.10") ∧
      p1.ipAddress = some (str "10.0.0.11") ∧
      p2.ipAddress = some (str "10.0.0.12") ∧
      p3.ipAddress = some (str "10.0.0.13") ∧
      p4.ipAddress = some (str "10.0.0.14") ∧
      st'.ipMap = [(n0, str "10.0.0.10"), (n1, str "10.0.0.11"), (n2, str "10.0.0.12"),
                   (n3, str "10.0.0.13"), (n4, str "10.0.0.14")] ∧
      st'.ipMap.length = 5 ∧
      st'.events.all (fun e => !isCometEvent e) = true :=
  c2_single_chameleon_end_to_end envAll200 0 _ (str "Chameleon-A") _ _ _ _ _
    rfl rfl (by decide) rfl rfl rfl rfl rfl rfl rfl rfl rfl rfl (fun _ => rfl)

/-! ### C1: any node-creation failure aborts the whole site's provisioning -/

/-- A trace whose node-creation calls all succeeded (other calls and
sleeps are unconstrained). -/
def cleanEvts : List Event → Bool
  | [] => true
  | Event.call (RemoteCall.createCompute _ _ _) s :: rest => (s == 200) && cleanEvts rest
  | _ :: rest => cleanEvts rest

/-- The abort discipline over a whole trace: every node-creation call
either succeeded, or is immediately followed by exactly one deletion of
the whole workflow — and by nothing else: no further node-creation (or
any other) request, in particular no retry. -/
def abortShape (host wid : Str) : List Event → Bool
  | [] => true
  | Event.call (RemoteCall.createCompute _ _ _) s :: rest =>
      if s == 200 then abortShape host wid rest
      else
        match rest with
        | [Event.call (RemoteCall.deleteWorkflow h2 w2) _] => h2 == host && w2 == wid
        | _ => false
  | _ :: rest => abortShape host wid rest

/-- A trace suffix that ends the run with an abort: clean events, then one
failing node-creation call, then the workflow deletion, then nothing. -/
def abortedTail (host wid : Str) (d : List Event) : Prop :=
  ∃ d0 p s ds, cleanEvts d0 = true ∧ (s == 200) = false ∧
    d = d0 ++ [Event.call (RemoteCall.createCompute host wid p) s,
               Event.call (RemoteCall.deleteWorkflow host wid) ds]

/-- The state evolved by appending only clean events. -/
def evClean (base stf : S) : Prop :=
  ∃ d, stf.events = base.events ++ d ∧ cleanEvts d = true

/-- The state evolved by appending an aborted tail. -/
def evAborted (host wid : Str) (base stf : S) : Prop :=
  ∃ d, stf.events = base.events ++ d ∧ abortedTail host wid d

lemma cleanEvts_append (d1 d2 : List Event) (h1 : cleanEvts d1 = true)
    (h2 : cleanEvts d2 = true) : cleanEvts (d1 ++ d2) = true := by
  induction d1 with
  | nil => simpa using h2
  | cons e rest ih =>
    cases e with
    | call c s => cases c <;> simp_all [cleanEvts]
    | sleep n => simp_all [cleanEvts]

lemma abortShape_append_clean (host wid : Str) (d1 d2 : List Event)
    (h1 : cleanEvts d1 = true) :
    abortShape host wid (d1 ++ d2) = abortShape host wid d2 := by
  induction d1 with
  | nil => rfl
  | cons e rest ih =>
    cases e with
    | call c s => cases c <;> simp_all [cleanEvts, abortShape]
    | sleep n => simp_all [cleanEvts, abortShape]

lemma abortShape_of_clean (host wid : Str) (d : List Event)
    (h1 : cleanEvts d = true) : abortShape host wid d = true := by
  have h2 := abortShape_append_clean host wid d [] h1
  simpa using h2

lemma abortShape_of_aborted (host wid : Str) (d : List Event)
    (ha : abortedTail host wid d) : abortShape host wid d = true := by
  obtain ⟨d0, p, s, ds, hc, hs, rfl⟩ := ha
  rw [abortShape_append_clean host wid d0 _ hc]
  simp [abortShape, hs]

lemma evClean_rfl (st : S) : evClean st st := ⟨[], by simp, rfl⟩

lemma evClean_trans {a b c : S} (h1 : evClean a b) (h2 : evClean b c) : evClean a c := by
  obtain ⟨d1, he1, hc1⟩ := h1
  obtain ⟨d2, he2, hc2⟩ := h2
  exact ⟨d1 ++ d2, by rw [he2, he1, List.append_assoc], cleanEvts_append _ _ hc1 hc2⟩

lemma evClean_evAborted {host wid : Str} {a b c : S} (h1 : evClean a b)
    (h2 : evAborted host wid b c) : evAborted host wid a c := by
  obtain ⟨d1, he1, hc1⟩ := h1
  obtain ⟨d2, he2, hd⟩ := h2
  obtain ⟨d0, p, s, ds, hc0, hs, rfl⟩ := hd
  refine ⟨d1 ++ (d0 ++ [Event.call (RemoteCall.createCompute host wid p) s,
    Event.call (RemoteCall.deleteWorkflow host wid) ds]),
    by rw [he2, he1, List.append_assoc], ?_⟩
  exact ⟨d1 ++ d0, p, s, ds, cleanEvts_append _ _ hc1 hc0, hs, by rw [List.append_assoc]⟩

lemma evEither_compose {host wid : Str} {a b c : S} (h1 : evClean a b)
    (h2 : evClean b c ∨ evAborted host wid b c) :
    evClean a c ∨ evAborted host wid a c :=
  h2.elim (fun x => Or.inl (evClean_trans h1 x)) (fun x => Or.inr (evClean_evAborted h1 x))

lemma evClean_of_events_eq {a b : S} (h : b.events = a.events) : evClean a b :=
  ⟨[], by simp [h], rfl⟩

lemma evClean_one (st stf : S) (e : Event)
    (hev : stf.events = st.events ++ [e]) (h1 : cleanEvts [e] = true) : evClean st stf :=
  ⟨[e], hev, h1⟩

lemma evClean_two (st stf : S) (e1 e2 : Event)
    (hev : stf.events = (st.events ++ [e1]) ++ [e2])
    (h1 : cleanEvts [e1, e2] = true) : evClean st stf :=
  ⟨[e1, e2], by rw [hev, List.append_assoc]; rfl, h1⟩

lemma evAborted_steps (host wid : Str) (st stf : S) (p : NodeShape) (s ds : Nat)
    (hev : stf.events = st.events ++ [Event.call (RemoteCall.createCompute host wid p) s,
       Event.call (RemoteCall.deleteWorkflow host wid) ds])
    (hs : (s == 200) = false) : evAborted host wid st stf :=
  ⟨_, hev, ⟨[], p, s, ds, rfl, hs, rfl⟩⟩

/-- The success/abort contract of the shared storage-node creation tail. -/
lemma provision_storage_create_spec (env : Env) (h w : Str) (lE : Option Str) (site : Str)
    (count : Nat) (ipS ss es : Option Str) (stdata : NodeShape) (st : S) :
    ((provision_storage_create env h w lE site count ipS ss es stdata st).1.1 = true →
      evClean st (provision_storage_create env h w lE site count ipS ss es stdata st).2) ∧
    ((provision_storage_create env h w lE site count ipS ss es stdata st).1.1 = false →
      evAborted h w st (provision_storage_create env h w lE site count ipS ss es stdata st).2) := by
  simp only [provision_storage_create, create_compute_eq]
  by_cases hs : (env.resp st.nCalls).status = 200
  · rw [if_neg (by simpa using hs)]
    constructor
    · intro _
      exact evClean_one st _ _ rfl (by simp [cleanEvts, hs])
    · intro hx
      simp at hx
  · rw [if_pos hs]
    constructor
    · intro hx
      simp at hx
    · intro _
      exact evAborted_steps h w st _
        (ccShape stdata ipS lE w (str "NODENAME")
          (ccName stdata (str "Node" ++ natToStr count) w count site) ss none none es)
        (env.resp st.nCalls).status (env.resp (st.nCalls + 1)).status
        (by simp [remoteCallT]) (by simp [hs])

/-- The success/abort contract of `provision_storage`. -/
lemma provision_storage_spec (env : Env) (h w : Str) (lE : Option Str) (dd : DataDir)
    (site : Str) (count : Nat) (ipS ss sip es : Option Str) (st : S) :
    match provision_storage env h w lE dd site count ipS ss sip es st with
    | Except.ok (r, st') =>
        (r.1 = true → evClean st st') ∧ (r.1 = false → evAborted h w st st')
    | Except.error (_, st') => evClean st st' := by
  unfold provision_storage
  cases hstor : dd.storage with
  | none => exact ⟨fun _ => evClean_rfl st, fun hx => by simp at hx⟩
  | some stor =>
    cases hpb : stor.shape.postBootScript with
    | none =>
      simp only [hpb]
      exact provision_storage_create_spec env h w lE site count ipS ss es _ st
    | some sc =>
      simp only [hpb]
      cases ipS with
      | none => exact evClean_rfl st
      | some ip => exact provision_storage_create_spec env h w lE site count (some ip) ss es _ st

/-- The success/abort contract of the worker loop. -/
lemma provision_workers_spec (env : Env) (h w : Str) (lE : Option Str) (site : Str)
    (stn sub fwd ss : Option Str) :
    ∀ (rem : Nat) (wdata : NodeShape) (old : Str) (ipS : Option Str) (count : Nat) (st : S),
    ((provision_workers env h w lE site stn sub fwd ss rem wdata old ipS count st).1.1 = true →
      evClean st (provision_workers env h w lE site stn sub fwd ss rem wdata old ipS count st).2) ∧
    ((provision_workers env h w lE site stn sub fwd ss rem wdata old ipS count st).1.1 = false →
      evAborted h w st
        (provision_workers env h w lE site stn sub fwd ss rem wdata old ipS count st).2) := by
  intro rem
  induction rem with
  | zero =>
    intro wdata old ipS count st
    rw [provision_workers_zero]
    exact ⟨fun _ => evClean_rfl st, fun hx => by simp at hx⟩
  | succ n ih =>
    intro wdata old ipS count st
    simp only [provision_workers_succ_eq, create_compute_eq]
    by_cases hs : (env.resp st.nCalls).status = 200
    · rw [if_neg (by simpa using hs)]
      have hstep : evClean st
          { nCalls := st.nCalls + 1,
            events := st.events ++ [Event.call (RemoteCall.createCompute h w
              (ccShape wdata (ipS.map get_next_ip) lE w old
                (ccName wdata (str "Node" ++ natToStr count) w count site) ss stn sub fwd))
              (env.resp st.nCalls).status],
            ipMap := match ipS.map get_next_ip with
              | some ip => mapInsert st.ipMap
                  (ccName wdata (str "Node" ++ natToStr count) w count site) ip
              | none => st.ipMap } :=
        evClean_one st _ _ rfl (by simp [cleanEvts, hs])
      exact ⟨fun ht => evClean_trans hstep ((ih _ _ _ _ _).1 ht),
             fun hf => evClean_evAborted hstep ((ih _ _ _ _ _).2 hf)⟩
    · rw [if_pos hs]
      constructor
      · intro hx
        simp at hx
      · intro _
        exact evAborted_steps h w st _
          (ccShape wdata (ipS.map get_next_ip) lE w old
            (ccName wdata (str "Node" ++ natToStr count) w count site) ss stn sub fwd)
          (env.resp st.nCalls).status (env.resp (st.nCalls + 1)).status
          (by simp [remoteCallT]) (by simp [hs])

/-- The success/abort contract of the worker phase wrapper. -/
lemma provision_cluster_workers_spec (env : Env) (h w : Str) (lE : Option Str) (site : Str)
    (wdata : Option NodeShape) (workers : Option Nat)
    (stn sub fwd ss : Option Str) (ipS : Option Str) (count : Nat) (st : S) :
    match provision_cluster_workers env h w lE site wdata workers stn sub fwd ss ipS count st with
    | Except.ok (r, st') =>
        (r.1 = true → evClean st st') ∧ (r.1 = false → evAborted h w st st')
    | Except.error (_, st') => evClean st st' := by
  unfold provision_cluster_workers
  cases wdata with
  | none => exact ⟨fun _ => evClean_rfl st, fun hx => by simp at hx⟩
  | some wd =>
    cases workers with
    | none => exact evClean_rfl st
    | some n =>
      exact provision_workers_spec env h w lE site stn sub fwd ss n wd (str "NODENAME")
        ipS count st

/-- The success/abort contract of the submit phase followed by the worker
phase. -/
lemma provision_cluster_submit_spec (env : Env) (h w : Str) (lE : Option Str) (site : Str)
    (sdata wdata : Option NodeShape) (workers : Option Nat)
    (stn sub fwd ss : Option Str) (ipS : Option Str) (count : Nat) (st : S) :
    match provision_cluster_submit env h w lE site sdata wdata workers stn sub fwd ss
        ipS count st with
    | Except.ok (r, st') =>
        (r.1 = true → evClean st st') ∧ (r.1 = false → evAborted h w st st')
    | Except.error (_, st') => evClean st st' := by
  unfold provision_cluster_submit
  cases sdata with
  | none =>
    exact provision_cluster_workers_spec env h w lE site wdata workers stn sub fwd ss
      ipS count st
  | some sd =>
    simp only [create_compute_eq]
    by_cases hs : (env.resp st.nCalls).status = 200
    · rw [if_neg (by simpa using hs)]
      have hstep : evClean st
          { nCalls := st.nCalls + 1,
            events := st.events ++ [Event.call (RemoteCall.createCompute h w
              (ccShape sd (ipS.map get_next_ip) lE w (str "NODENAME")
                (ccName sd (str "Node" ++ natToStr count) w count site) ss stn sub fwd))
              (env.resp st.nCalls).status],
            ipMap := match ipS.map get_next_ip with
              | some ip => mapInsert st.ipMap
                  (ccName sd (str "Node" ++ natToStr count) w count site) ip
              | none => st.ipMap } :=
        evClean_one st _ _ rfl (by simp [cleanEvts, hs])
      have hnext := provision_cluster_workers_spec env h w lE site wdata workers stn sub fwd
        ss (ipS.map get_next_ip) (count + 1)
        { nCalls := st.nCalls + 1,
          events := st.events ++ [Event.call (RemoteCall.createCompute h w
            (ccShape sd (ipS.map get_next_ip) lE w (str "NODENAME")
              (ccName sd (str "Node" ++ natToStr count) w count site) ss stn sub fwd))
            (env.resp st.nCalls).status],
          ipMap := match ipS.map get_next_ip with
            | some ip => mapInsert st.ipMap
                (ccName sd (str "Node" ++ natToStr count) w count site) ip
            | none => st.ipMap }
      cases hres : provision_cluster_workers env h w lE site wdata workers stn sub fwd ss
          (ipS.map get_next_ip) (count + 1)
          { nCalls := st.nCalls + 1,
            events := st.events ++ [Event.call (RemoteCall.createCompute h w
              (ccShape sd (ipS.map get_next_ip) lE w (str "NODENAME")
                (ccName sd (str "Node" ++ natToStr count) w count site) ss stn sub fwd))
              (env.resp st.nCalls).status],
            ipMap := match ipS.map get_next_ip with
              | some ip => mapInsert st.ipMap
                  (ccName sd (str "Node" ++ natToStr count) w count site) ip
              | none => st.ipMap } with
      | ok p =>
        obtain ⟨r, st'⟩ := p
        rw [hres] at hnext
        obtain ⟨hT, hF⟩ := hnext
        exact ⟨fun ht => evClean_trans hstep (hT ht),
               fun hf => evClean_evAborted hstep (hF hf)⟩
      | error p =>
        obtain ⟨err, st'⟩ := p
        rw [hres] at hnext
        exact evClean_trans hstep hnext
    · rw [if_pos hs]
      constructor
      · intro hx
        simp at hx
      · intro _
        exact evAborted_steps h w st _
          (ccShape sd (ipS.map get_next_ip) lE w (str "NODENAME")
            (ccName sd (str "Node" ++ natToStr count) w count site) ss stn sub fwd)
          (env.resp st.nCalls).status (env.resp (st.nCalls + 1)).status
          (by simp [remoteCallT]) (by simp [hs])

/-- The success/abort contract of the whole cluster pass
(master → submit → workers). -/
lemma provision_condor_cluster_spec (env : Env) (h w : Str) (lE : Option Str) (dd : DataDir)
    (site : Str) (count : Nat) (ipS : Option Str) (workers : Option Nat)
    (stn sub fwd ss : Option Str) (st : S) :
    match provision_condor_cluster env h w lE dd site count ipS workers stn sub fwd ss st with
    | Except.ok (r, st') =>
        (r.1 = true → evClean st st') ∧ (r.1 = false → evAborted h w st st')
    | Except.error (_, st') => evClean st st' := by
  unfold provision_condor_cluster
  cases hm : dd.master with
  | none =>
    simp only [Option.map_none']
    exact provision_cluster_submit_spec env h w lE site _ _ workers stn sub fwd ss
      ipS count st
  | some md =>
    simp only [Option.map_some']
    generalize (if ipS.isSome && stn.isSome then ipS.map get_next_ip else ipS) = ipn
    simp only [create_compute_eq]
    by_cases hs : (env.resp st.nCalls).status = 200
    · rw [if_neg (by simpa using hs)]
      generalize (ccName { md with site := site } (str "Node" ++ natToStr count) w count site)
        = nm
      generalize (ccShape { md with site := site } ipn lE w (str "NODENAME") nm ss stn sub fwd)
        = pl
      generalize hstq :
        ({ nCalls := st.nCalls + 1,
           events := st.events ++
             [Event.call (RemoteCall.createCompute h w pl) (env.resp st.nCalls).status],
           ipMap := match ipn with
             | some ip => mapInsert st.ipMap nm ip
             | none => st.ipMap } : S) = st1
      have hstep : evClean st st1 :=
        evClean_one st st1 _ (by rw [← hstq]) (by simp [cleanEvts, hs])
      have hnext := provision_cluster_submit_spec env h w lE site
        (dd.submit.map (fun x => { x with site := site }))
        (dd.worker.map (fun x => { x with site := site })) workers stn sub fwd ss
        ipn (count + 1) st1
      cases hres : provision_cluster_submit env h w lE site
          (dd.submit.map (fun x => { x with site := site }))
          (dd.worker.map (fun x => { x with site := site })) workers stn sub fwd ss
          ipn (count + 1) st1 with

      | ok p =>
        obtain ⟨r, st'⟩ := p
        rw [hres] at hnext
        obtain ⟨hT, hF⟩ := hnext
        exact ⟨fun ht => evClean_trans hstep (hT ht),
               fun hf => evClean_evAborted hstep (hF hf)⟩
      | error p =>
        obtain ⟨err, st'⟩ := p
        rw [hres] at hnext
        exact evClean_trans hstep hnext
    · rw [if_pos hs]
      constructor
      · intro hx
        simp at hx
      · intro _
        exact evAborted_steps h w st _
          (ccShape { md with site := site } ipn lE w (str "NODENAME")
            (ccName { md with site := site } (str "Node" ++ natToStr count) w count site)
            ss stn sub fwd)
          (env.resp st.nCalls).status (env.resp (st.nCalls + 1)).status
          (by simp [remoteCallT]) (by simp [hs])

lemma evClean_match_compose {α : Type} {a b : S} (x : Except (Halt × S) (α × S))
    (h2 : match x with
          | Except.ok (_, st') => evClean b st'
          | Except.error (_, st') => evClean b st')
    (h1 : evClean a b) :
    match x with
    | Except.ok (_, st') => evClean a st'
    | Except.error (_, st') => evClean a st' := by
  cases x with
  | ok p =>
    obtain ⟨u, st'⟩ := p
    exact evClean_trans h1 h2
  | error p =>
    obtain ⟨e, st'⟩ := p
    exact evClean_trans h1 h2

lemma evEither_match_compose {α : Type} (host wid : Str) {a b : S}
    (x : Except (Halt × S) (α × S))
    (h2 : match x with
          | Except.ok (_, st') => evClean b st' ∨ evAborted host wid b st'
          | Except.error (_, st') => evClean b st' ∨ evAborted host wid b st')
    (h1 : evClean a b) :
    match x with
    | Except.ok (_, st') => evClean a st' ∨ evAborted host wid a st'
    | Except.error (_, st') => evClean a st' ∨ evAborted host wid a st' := by
  cases x with
  | ok p =>
    obtain ⟨u, st'⟩ := p
    exact evEither_compose h1 h2
  | error p =>
    obtain ⟨e, st'⟩ := p
    exact evEither_compose h1 h2

lemma evEither_of_evClean_match {α : Type} (host wid : Str) {a : S}
    (x : Except (Halt × S) (α × S))
    (h2 : match x with
          | Except.ok (_, st') => evClean a st'
          | Except.error (_, st') => evClean a st') :
    match x with
    | Except.ok (_, st') => evClean a st' ∨ evAborted host wid a st'
    | Except.error (_, st') => evClean a st' ∨ evAborted host wid a st' := by
  cases x with
  | ok p =>
    obtain ⟨u, st'⟩ := p
    exact Or.inl h2
  | error p =>
    obtain ⟨e, st'⟩ := p
    exact Or.inl h2

/-- Context publishing is clean: it never issues node-creation calls. -/
lemma comet_node_evClean (env : Env) (ch wid sliceName : Str)
    (acc : Option StitchData × Option Str) (n : NodeInfo) (st : S) :
    evClean st (comet_node env ch wid sliceName acc n st).2 := by
  unfold comet_node
  exact evClean_two st _ _ _ rfl (by simp [cleanEvts])

lemma comet_nodes_evClean (env : Env) (ch wid sliceName : Str) :
    ∀ (ns : List NodeInfo) (acc : Option StitchData × Option Str) (st : S),
    evClean st (comet_nodes env ch wid sliceName ns acc st).2 := by
  intro ns
  induction ns with
  | nil =>
    intro acc st
    exact evClean_rfl st
  | cons n rest ih =>
    intro acc st
    have h1 := comet_node_evClean env ch wid sliceName acc n st
    have estep : comet_nodes env ch wid sliceName (n :: rest) acc st =
        comet_nodes env ch wid sliceName rest
          (comet_node env ch wid sliceName acc n st).1
          (comet_node env ch wid sliceName acc n st).2 := rfl
    rw [estep]
    exact evClean_trans h1 (ih _ _)

lemma comet_slices_evClean (env : Env) (ch wid : Str) :
    ∀ (sls : List SliceInfo) (acc : Option StitchData × Option Str) (st : S),
    evClean st (comet_slices env ch wid sls acc st).2 := by
  intro sls
  induction sls with
  | nil =>
    intro acc st
    exact evClean_rfl st
  | cons sl rest ih =>
    intro acc st
    have h1 := comet_nodes_evClean env ch wid sl.slice sl.nodes acc st
    have estep : comet_slices env ch wid (sl :: rest) acc st =
        comet_slices env ch wid rest
          (comet_nodes env ch wid sl.slice sl.nodes acc st).1
          (comet_nodes env ch wid sl.slice sl.nodes acc st).2 := rfl
    rw [estep]
    exact evClean_trans h1 (ih _ _)

lemma comet_reqs_evClean (env : Env) (ch wid : Str) :
    ∀ (rs : List SiteReq) (acc : Option Str × Option StitchData × Option Str) (st : S),
    evClean st (comet_reqs env ch wid rs acc st).2 := by
  intro rs
  induction rs with
  | nil =>
    intro acc st
    exact evClean_rfl st
  | cons r rest ih =>
    intro acc st
    obtain ⟨v, sd, sns⟩ := acc
    have h1 := comet_slices_evClean env ch wid r.slices (sd, sns) st
    have estep : comet_reqs env ch wid (r :: rest) (v, sd, sns) st =
        comet_reqs env ch wid rest
          ((if isSubstr (str "Chameleon") r.site then
              match r.vlan with
              | some v2 => some v2
              | none => v
            else v),
           (comet_slices env ch wid r.slices (sd, sns) st).1.1,
           (comet_slices env ch wid r.slices (sd, sns) st).1.2)
          (comet_slices env ch wid r.slices (sd, sns) st).2 := rfl
    rw [estep]
    exact evClean_trans h1 (ih _ _)

/-- The stitch poll loop is clean: it only fetches the workflow and
sleeps. -/
lemma stitch_wait_evClean (env : Env) (mh wid : Str) :
    ∀ (fuel : Nat) (sdq : Option StitchData) (sns : Option Str) (st : S),
    match stitch_wait env mh wid sdq fuel sns st with
    | Except.ok (_, st') => evClean st st'
    | Except.error (_, st') => evClean st st' := by
  intro fuel
  induction fuel with
  | zero =>
    intro sdq sns st
    rw [stitch_wait.eq_def]
    by_cases hsns : (sns == some (str "Active")) = true
    · simp only [hsns]
      exact evClean_rfl st
    · simp only [hsns]
      cases sdq with
      | none => exact evClean_rfl st
      | some sd => exact evClean_rfl st
  | succ n ih =>
    intro sdq sns st
    rw [stitch_wait.eq_def]
    by_cases hsns : (sns == some (str "Active")) = true
    · simp only [hsns]
      exact evClean_rfl st
    · simp only [hsns]
      cases sdq with
      | none => exact evClean_rfl st
      | some sd =>
        have h2 := ih (some sd)
          (if (env.resp st.nCalls).status == 200
           then scanStitchState sd.target (env.resp st.nCalls).requests sns else sns)
          (pySleepT 5 (remoteCallT env (RemoteCall.getWorkflow mh wid) st).2)
        have h1 : evClean st
            (pySleepT 5 (remoteCallT env (RemoteCall.getWorkflow mh wid) st).2) :=
          evClean_two st _ _ _ rfl (by simp [cleanEvts])
        show match stitch_wait env mh wid (some sd) n
            (if (env.resp st.nCalls).status == 200
             then scanStitchState sd.target (env.resp st.nCalls).requests sns else sns)
            (pySleepT 5 (remoteCallT env (RemoteCall.getWorkflow mh wid) st).2) with
          | Except.ok (_, st') => evClean st st'
          | Except.error (_, st') => evClean st st'
        cases hres : stitch_wait env mh wid (some sd) n
            (if (env.resp st.nCalls).status == 200
             then scanStitchState sd.target (env.resp st.nCalls).requests sns else sns)
            (pySleepT 5 (remoteCallT env (RemoteCall.getWorkflow mh wid) st).2) with
        | ok p =>
          obtain ⟨u, st'⟩ := p
          rw [hres] at h2
          exact evClean_trans h1 h2
        | error p =>
          obtain ⟨e, st'⟩ := p
          rw [hres] at h2
          exact evClean_trans h1 h2

/-- Submitting the stitch-port request is clean. -/
lemma perform_stitch_evClean (env : Env) (mh wid : Str) (datadir : Option DataDir)
    (vlan : Str) (dataq : Option StitchData) (st : S) :
    match perform_stitch env mh wid datadir vlan dataq st with
    | Except.ok (_, st') => evClean st st'
    | Except.error (_, st') => evClean st st' := by
  unfold perform_stitch
  cases dataq with
  | some d => exact evClean_one st _ _ rfl (by simp [cleanEvts])
  | none =>
    cases datadir with
    | none => exact evClean_rfl st
    | some dd =>
      obtain ⟨dst, f2, f3, f4, f5⟩ := dd
      cases dst with
      | none => exact evClean_rfl st
      | some d2 => exact evClean_one st _ _ rfl (by simp [cleanEvts])

/-- The whole stitching hand-off is clean. -/
lemma stitch_phase_evClean (env : Env) (fuel : Nat) (mh wid : Str)
    (exogenisite : Option Str) (exodatadir : Option DataDir)
    (stitcVlan sns : Option Str) (sdq : Option StitchData) (st : S) :
    match stitch_phase env fuel mh wid exogenisite exodatadir stitcVlan sns sdq st with
    | Except.ok (_, st') => evClean st st'
    | Except.error (_, st') => evClean st st' := by
  cases stitcVlan with
  | none => exact evClean_rfl st
  | some vlan =>
    have estep : stitch_phase env fuel mh wid exogenisite exodatadir (some vlan) sns sdq st =
        (if exogenisite.isSome then
          match stitch_wait env mh wid sdq fuel sns st with
          | Except.error e => Except.error e
          | Except.ok (_, st1) =>
            match perform_stitch env mh wid exodatadir vlan sdq (pySleepT 60 st1) with
            | Except.error e => Except.error e
            | Except.ok (_, st2) => Except.ok ((), st2)
        else Except.ok ((), st)) := rfl
    rw [estep]
    by_cases hexo : exogenisite.isSome = true
    · rw [if_pos hexo]
      have hsw := stitch_wait_evClean env mh wid fuel sdq sns st
      cases hres : stitch_wait env mh wid sdq fuel sns st with
      | error p =>
        obtain ⟨e, st'⟩ := p
        rw [hres] at hsw
        exact hsw
      | ok p =>
        obtain ⟨u, st'⟩ := p
        rw [hres] at hsw
        have hslp : evClean st' (pySleepT 60 st') :=
          evClean_one st' _ _ rfl (by simp [cleanEvts])
        have hps := perform_stitch_evClean env mh wid exodatadir vlan sdq (pySleepT 60 st')
        show match (match perform_stitch env mh wid exodatadir vlan sdq (pySleepT 60 st') with
              | Except.error e => Except.error e
              | Except.ok (_, st2) => Except.ok ((), st2)) with
          | Except.ok (_, st2) => evClean st st2
          | Except.error (_, st2) => evClean st st2
        cases hres2 : perform_stitch env mh wid exodatadir vlan sdq (pySleepT 60 st') with
        | error q =>
          obtain ⟨e2, st''⟩ := q
          rw [hres2] at hps
          exact evClean_trans hsw (evClean_trans hslp hps)
        | ok q =>
          obtain ⟨r2, st''⟩ := q
          rw [hres2] at hps
          exact evClean_trans hsw (evClean_trans hslp hps)
    · rw [if_neg hexo]
      exact evClean_rfl st

/-- The final step (re-fetch, publish, stitch) is clean: it never issues
node-creation calls. -/
lemma create_phase_final_spec (env : Env) (fuel : Nat) (args : Args)
    (sd : Option StitchData) (st : S) :
    match create_phase_final env fuel args sd st with
    | Except.ok (_, st') => evClean st st'
    | Except.error (_, st') => evClean st st' := by
  unfold create_phase_final
  rcases hrc : remoteCallT env (RemoteCall.getWorkflow args.mobiushost args.workflowId) st
    with ⟨resp, st1⟩
  dsimp only
  have h1 : evClean st st1 := by
    have h2 : st1 =
        (remoteCallT env (RemoteCall.getWorkflow args.mobiushost args.workflowId) st).2 := by
      rw [hrc]
    rw [h2]
    exact evClean_one st _ _ rfl (by simp [cleanEvts])
  cases hcom : args.comethost with
  | none =>
    have h3 := stitch_phase_evClean env fuel args.mobiushost args.workflowId
      args.exogenisite args.exodatadir none none sd st1
    cases hres : stitch_phase env fuel args.mobiushost args.workflowId
        args.exogenisite args.exodatadir none none sd st1 with
    | ok p =>
      obtain ⟨u, st'⟩ := p
      rw [hres] at h3
      exact evClean_trans h1 h3
    | error p =>
      obtain ⟨e, st'⟩ := p
      rw [hres] at h3
      exact evClean_trans h1 h3
  | some ch =>
    dsimp only
    by_cases hrs : (resp.status == 200) = true
    · rw [if_pos hrs]
      rcases hcr : comet_reqs env ch args.workflowId resp.requests (none, sd, none) st1
        with ⟨a, st2⟩
      obtain ⟨v, sd2, sns2⟩ := a
      dsimp only
      have h2 := comet_reqs_evClean env ch args.workflowId resp.requests (none, sd, none) st1
      rw [hcr] at h2
      have h3 := stitch_phase_evClean env fuel args.mobiushost args.workflowId
        args.exogenisite args.exodatadir v sns2 sd2 st2
      cases hres : stitch_phase env fuel args.mobiushost args.workflowId
          args.exogenisite args.exodatadir v sns2 sd2 st2 with
      | ok p =>
        obtain ⟨u, st'⟩ := p
        rw [hres] at h3
        exact evClean_trans h1 (evClean_trans h2 h3)
      | error p =>
        obtain ⟨e, st'⟩ := p
        rw [hres] at h3
        exact evClean_trans h1 (evClean_trans h2 h3)
    · rw [if_neg hrs]
      have h3 := stitch_phase_evClean env fuel args.mobiushost args.workflowId
        args.exogenisite args.exodatadir none none sd st1
      cases hres : stitch_phase env fuel args.mobiushost args.workflowId
          args.exogenisite args.exodatadir none none sd st1 with
      | ok p =>
        obtain ⟨u, st'⟩ := p
        rw [hres] at h3
        exact evClean_trans h1 h3
      | error p =>
        obtain ⟨e, st'⟩ := p
        rw [hres] at h3
        exact evClean_trans h1 h3

/-- Start-IP validation either accepts or fails, always leaving the state
unchanged. -/
lemma validate_ip_range_total (ipS : Option Str) (wS : Option Nat) (st : S) :
    validate_ip_range ipS wS st = Except.ok ((), st) ∨
      ∃ e, validate_ip_range ipS wS st = Except.error (e, st) := by
  cases ipS with
  | none => left; rfl
  | some ip =>
    simp only [validate_ip_range]
    by_cases hv : is_valid_ipv4_address ip = false
    · right
      exact ⟨_, by rw [if_pos hv]⟩
    · rw [if_neg hv]
      cases wS with
      | none =>
        right
        exact ⟨_, rfl⟩
      | some w =>
        dsimp only
        by_cases hf : can_ip_satisfy_range ip (w + 1) = false
        · right
          exact ⟨_, by rw [if_pos hf]⟩
        · left
          rw [if_neg hf]

/-- Reading the exogeni hints either returns them or raises, always
leaving the state unchanged. -/
lemma resolve_exo_hints_total (args : Args) (st : S) :
    (∃ h, resolve_exo_hints args st = Except.ok (h, st)) ∨
      ∃ e, resolve_exo_hints args st = Except.error (e, st) := by
  unfold resolve_exo_hints
  cases hes : args.exogenisite with
  | none =>
    left
    exact ⟨_, rfl⟩
  | some es =>
    cases hed : args.exodatadir with
    | none =>
      left
      exact ⟨_, rfl⟩
    | some dd =>
      dsimp only
      cases hstor : dd.storage with
      | none =>
        left
        exact ⟨_, rfl⟩
      | some stor =>
        dsimp only
        cases hsip : stor.stitchIP with
        | none =>
          right
          exact ⟨_, rfl⟩
        | some ip =>
          left
          exact ⟨_, rfl⟩

lemma final_phase_either (env : Env) (fuel : Nat) (args : Args) (sd : Option StitchData)
    {st stX : S} (hclean : evClean st stX) :
    match create_phase_final env fuel args sd stX with
    | Except.ok (_, st') =>
        evClean st st' ∨ evAborted args.mobiushost args.workflowId st st'
    | Except.error (_, st') =>
        evClean st st' ∨ evAborted args.mobiushost args.workflowId st st' := by
  have h3 := create_phase_final_spec env fuel args sd stX
  cases hres : create_phase_final env fuel args sd stX with
  | ok p =>
    obtain ⟨u, st'⟩ := p
    rw [hres] at h3
    exact Or.inl (evClean_trans hclean h3)
  | error p =>
    obtain ⟨e, st'⟩ := p
    rw [hres] at h3
    exact Or.inl (evClean_trans hclean h3)

/-- The exogeni cluster pass preserves the abort discipline. -/
lemma create_phase_exo_cluster_spec (env : Env) (fuel : Nat) (args : Args)
    (sd : Option StitchData) (ss exostoragename : Option Str) (count : Nat) (st : S) :
    match create_phase_exo_cluster env fuel args sd ss exostoragename count st with
    | Except.ok (_, st') =>
        evClean st st' ∨ evAborted args.mobiushost args.workflowId st st'
    | Except.error (_, st') =>
        evClean st st' ∨ evAborted args.mobiushost args.workflowId st st' := by
  unfold create_phase_exo_cluster
  cases hes : args.exogenisite with
  | none => exact final_phase_either env fuel args sd (evClean_rfl st)
  | some exosite =>
    dsimp only
    cases hed : args.exodatadir with
    | none => exact final_phase_either env fuel args sd (evClean_rfl st)
    | some exodd =>
      dsimp only
      cases exostoragename with
      | none =>
        dsimp only
        have hcl := provision_condor_cluster_spec env args.mobiushost args.workflowId
          args.leaseEnd exodd exosite count args.exoipStart args.exoworkers none
          (args.chipStart.map get_cidr) none ss st
        cases hres : provision_condor_cluster env args.mobiushost args.workflowId
            args.leaseEnd exodd exosite count args.exoipStart args.exoworkers none
            (args.chipStart.map get_cidr) none ss st with
        | error p =>
          obtain ⟨e, st'⟩ := p
          rw [hres] at hcl
          exact Or.inl hcl
        | ok p =>
          obtain ⟨r, st'⟩ := p
          rw [hres] at hcl
          obtain ⟨hT, hF⟩ := hcl
          obtain ⟨r1, r2⟩ := r
          cases r1 with
          | false => exact Or.inr (hF rfl)
          | true => exact final_phase_either env fuel args sd (hT rfl)
      | some nm =>
        dsimp only
        cases hlk : mapLookup st.ipMap nm with
        | none => exact Or.inl (evClean_rfl st)
        | some fip =>
          dsimp only
          have hcl := provision_condor_cluster_spec env args.mobiushost args.workflowId
            args.leaseEnd exodd exosite count args.exoipStart args.exoworkers (some nm)
            (args.chipStart.map get_cidr) (some fip) ss st
          cases hres : provision_condor_cluster env args.mobiushost args.workflowId
              args.leaseEnd exodd exosite count args.exoipStart args.exoworkers (some nm)
              (args.chipStart.map get_cidr) (some fip) ss st with
          | error p =>
            obtain ⟨e, st'⟩ := p
            rw [hres] at hcl
            exact Or.inl hcl
          | ok p =>
            obtain ⟨r, st'⟩ := p
            rw [hres] at hcl
            obtain ⟨hT, hF⟩ := hcl
            obtain ⟨r1, r2⟩ := r
            cases r1 with
            | false => exact Or.inr (hF rfl)
            | true => exact final_phase_either env fuel args sd (hT rfl)

lemma exo_cluster_either (env : Env) (fuel : Nat) (args : Args) (sd : Option StitchData)
    (ss exostoragename : Option Str) (count : Nat) {st stX : S} (hclean : evClean st stX) :
    match create_phase_exo_cluster env fuel args sd ss exostoragename count stX with
    | Except.ok (_, st') =>
        evClean st st' ∨ evAborted args.mobiushost args.workflowId st st'
    | Except.error (_, st') =>
        evClean st st' ∨ evAborted args.mobiushost args.workflowId st st' := by
  have h3 := create_phase_exo_cluster_spec env fuel args sd ss exostoragename count stX
  cases hres : create_phase_exo_cluster env fuel args sd ss exostoragename count stX with
  | ok p =>
    obtain ⟨u, st'⟩ := p
    rw [hres] at h3
    exact evEither_compose hclean h3
  | error p =>
    obtain ⟨e, st'⟩ := p
    rw [hres] at h3
    exact evEither_compose hclean h3

/-- The chameleon cluster pass preserves the abort discipline. -/
lemma create_phase_ch_cluster_spec (env : Env) (fuel : Nat) (args : Args)
    (sd : Option StitchData) (ss chstoragename exostoragename : Option Str)
    (count : Nat) (st : S) :
    match create_phase_ch_cluster env fuel args sd ss chstoragename exostoragename count st with
    | Except.ok (_, st') =>
        evClean st st' ∨ evAborted args.mobiushost args.workflowId st st'
    | Except.error (_, st') =>
        evClean st st' ∨ evAborted args.mobiushost args.workflowId st st' := by
  unfold create_phase_ch_cluster
  cases hcs : args.chameleonsite with
  | none =>
    exact exo_cluster_either env fuel args sd ss exostoragename count (evClean_rfl st)
  | some chsite =>
    dsimp only
    cases hcd : args.chdatadir with
    | none =>
      exact exo_cluster_either env fuel args sd ss exostoragename count (evClean_rfl st)
    | some chdd =>
      dsimp only
      have hcl := provision_condor_cluster_spec env args.mobiushost args.workflowId
        args.leaseEnd chdd chsite count args.chipStart args.chworkers chstoragename
        (args.exoipStart.map get_cidr) (sd.map (fun x => x.stitchIP)) ss st
      cases hres : provision_condor_cluster env args.mobiushost args.workflowId
          args.leaseEnd chdd chsite count args.chipStart args.chworkers chstoragename
          (args.exoipStart.map get_cidr) (sd.map (fun x => x.stitchIP)) ss st with
      | error p =>
        obtain ⟨e, st'⟩ := p
        rw [hres] at hcl
        exact Or.inl hcl
      | ok p =>
        obtain ⟨r, st'⟩ := p
        rw [hres] at hcl
        obtain ⟨hT, hF⟩ := hcl
        obtain ⟨r1, r2⟩ := r
        cases r1 with
        | false => exact Or.inr (hF rfl)
        | true =>
          exact exo_cluster_either env fuel args sd ss exostoragename r2 (hT rfl)

lemma ch_cluster_either (env : Env) (fuel : Nat) (args : Args) (sd : Option StitchData)
    (ss chstoragename exostoragename : Option Str) (count : Nat) {st stX : S}
    (hclean : evClean st stX) :
    match create_phase_ch_cluster env fuel args sd ss chstoragename exostoragename count stX with
    | Except.ok (_, st') =>
        evClean st st' ∨ evAborted args.mobiushost args.workflowId st st'
    | Except.error (_, st') =>
        evClean st st' ∨ evAborted args.mobiushost args.workflowId st st' := by
  have h3 := create_phase_ch_cluster_spec env fuel args sd ss chstoragename exostoragename
    count stX
  cases hres : create_phase_ch_cluster env fuel args sd ss chstoragename exostoragename
      count stX with
  | ok p =>
    obtain ⟨u, st'⟩ := p
    rw [hres] at h3
    exact evEither_compose hclean h3
  | error p =>
    obtain ⟨e, st'⟩ := p
    rw [hres] at h3
    exact evEither_compose hclean h3

/-- The exogeni storage pass preserves the abort discipline. -/
lemma create_phase_exo_storage_spec (env : Env) (fuel : Nat) (args : Args)
    (sd : Option StitchData) (sip ss chstoragename : Option Str) (count : Nat) (st : S) :
    match create_phase_exo_storage env fuel args sd sip ss chstoragename count st with
    | Except.ok (_, st') =>
        evClean st st' ∨ evAborted args.mobiushost args.workflowId st st'
    | Except.error (_, st') =>
        evClean st st' ∨ evAborted args.mobiushost args.workflowId st st' := by
  unfold create_phase_exo_storage
  cases hes : args.exogenisite with
  | none =>
    exact ch_cluster_either env fuel args sd ss chstoragename none count (evClean_rfl st)
  | some exosite =>
    dsimp only
    cases hed : args.exodatadir with
    | none =>
      exact ch_cluster_either env fuel args sd ss chstoragename none count (evClean_rfl st)
    | some exodd =>
      dsimp only
      have hsp := provision_storage_spec env args.mobiushost args.workflowId args.leaseEnd
        exodd exosite count args.exoipStart ss sip none st
      cases hres : provision_storage env args.mobiushost args.workflowId args.leaseEnd
          exodd exosite count args.exoipStart ss sip none st with
      | error p =>
        obtain ⟨e, st'⟩ := p
        rw [hres] at hsp
        exact Or.inl hsp
      | ok p =>
        obtain ⟨r, st'⟩ := p
        rw [hres] at hsp
        obtain ⟨hT, hF⟩ := hsp
        obtain ⟨r1, r2, r3⟩ := r
        cases r1 with
        | false => exact Or.inr (hF rfl)
        | true =>
          exact ch_cluster_either env fuel args sd ss chstoragename r3 r2 (hT rfl)

lemma exo_storage_either (env : Env) (fuel : Nat) (args : Args) (sd : Option StitchData)
    (sip ss chstoragename : Option Str) (count : Nat) {st stX : S}
    (hclean : evClean st stX) :
    match create_phase_exo_storage env fuel args sd sip ss chstoragename count stX with
    | Except.ok (_, st') =>
        evClean st st' ∨ evAborted args.mobiushost args.workflowId st st'
    | Except.error (_, st') =>
        evClean st st' ∨ evAborted args.mobiushost args.workflowId st st' := by
  have h3 := create_phase_exo_storage_spec env fuel args sd sip ss chstoragename count stX
  cases hres : create_phase_exo_storage env fuel args sd sip ss chstoragename count stX with
  | ok p =>
    obtain ⟨u, st'⟩ := p
    rw [hres] at h3
    exact evEither_compose hclean h3
  | error p =>
    obtain ⟨e, st'⟩ := p
    rw [hres] at h3
    exact evEither_compose hclean h3

/-- The chameleon storage pass preserves the abort discipline. -/
lemma create_phase_ch_storage_spec (env : Env) (fuel : Nat) (args : Args)
    (sd : Option StitchData) (sip ss : Option Str) (st : S) :
    match create_phase_ch_storage env fuel args sd sip ss st with
    | Except.ok (_, st') =>
        evClean st st' ∨ evAborted args.mobiushost args.workflowId st st'
    | Except.error (_, st') =>
        evClean st st' ∨ evAborted args.mobiushost args.workflowId st st' := by
  unfold create_phase_ch_storage
  cases hcs : args.chameleonsite with
  | none => exact exo_storage_either env fuel args sd sip ss none 0 (evClean_rfl st)
  | some chsite =>
    dsimp only
    cases hcd : args.chdatadir with
    | none => exact exo_storage_either env fuel args sd sip ss none 0 (evClean_rfl st)
    | some chdd =>
      dsimp only
      have hsp := provision_storage_spec env args.mobiushost args.workflowId args.leaseEnd
        chdd chsite 0 args.chipStart ss none (args.exoipStart.map get_cidr) st
      cases hres : provision_storage env args.mobiushost args.workflowId args.leaseEnd
          chdd chsite 0 args.chipStart ss none (args.exoipStart.map get_cidr) st with
      | error p =>
        obtain ⟨e, st'⟩ := p
        rw [hres] at hsp
        exact Or.inl hsp
      | ok p =>
        obtain ⟨r, st'⟩ := p
        rw [hres] at hsp
        obtain ⟨hT, hF⟩ := hsp
        obtain ⟨r1, r2, r3⟩ := r
        cases r1 with
        | false => exact Or.inr (hF rfl)
        | true =>
          cases r3 with
          | none => exact Or.inl (hT rfl)
          | some nm =>
            exact exo_storage_either env fuel args sd sip ss
              (some (nm ++ str ".novalocal")) r2 (hT rfl)

lemma ch_storage_either (env : Env) (fuel : Nat) (args : Args) (sd : Option StitchData)
    (sip ss : Option Str) {st stX : S} (hclean : evClean st stX) :
    match create_phase_ch_storage env fuel args sd sip ss stX with
    | Except.ok (_, st') =>
        evClean st st' ∨ evAborted args.mobiushost args.workflowId st st'
    | Except.error (_, st') =>
        evClean st st' ∨ evAborted args.mobiushost args.workflowId st st' := by
  have h3 := create_phase_ch_storage_spec env fuel args sd sip ss stX
  cases hres : create_phase_ch_storage env fuel args sd sip ss stX with
  | ok p =>
    obtain ⟨u, st'⟩ := p
    rw [hres] at h3
    exact evEither_compose hclean h3
  | error p =>
    obtain ⟨e, st'⟩ := p
    rw [hres] at h3
    exact evEither_compose hclean h3

/-- The whole create flow preserves the abort discipline. -/
lemma mainCreate_spec (env : Env) (fuel : Nat) (args : Args) (st : S) :
    match mainCreate env fuel args st with
    | Except.ok (_, st') =>
        evClean st st' ∨ evAborted args.mobiushost args.workflowId st st'
    | Except.error (_, st') =>
        evClean st st' ∨ evAborted args.mobiushost args.workflowId st st' := by
  unfold mainCreate
  dsimp only
  generalize hst0 : ({ st with ipMap := ([] : IPMap) } : S) = st0
  have h0 : evClean st st0 := by
    rw [← hst0]
    exact evClean_of_events_eq rfl
  by_cases h1 : ((args.exogenisite.isNone && args.chameleonsite.isNone) ||
      (args.exoworkers.isNone && args.chworkers.isNone) ||
      (args.exodatadir.isNone && args.chdatadir.isNone)) = true
  · rw [if_pos h1]
    exact Or.inl h0
  · rw [if_neg h1]
    rcases validate_ip_range_total args.exoipStart args.exoworkers st0 with hv1 | ⟨e1, hv1⟩
    · rw [hv1]
      dsimp only [bindE]
      rcases validate_ip_range_total args.chipStart args.chworkers st0 with hv2 | ⟨e2, hv2⟩
      · rw [hv2]
        dsimp only [bindE]
        by_cases h2 : (args.comethost.isSome && (args.cert.isNone || args.key.isNone)) = true
        · rw [if_pos h2]
          exact Or.inl h0
        · rw [if_neg h2]
          by_cases h3 : (match args.chameleonsite with
              | some s2 => !isSubstr (str "Chameleon") s2
              | none => false) = true
          · rw [if_pos h3]
            exact Or.inl h0
          · rw [if_neg h3]
            by_cases h4 : (match args.exogenisite with
                | some s1 => !isSubstr (str "Exogeni") s1
                | none => false) = true
            · rw [if_pos h4]
              exact Or.inl h0
            · rw [if_neg h4]
              rcases hrc : remoteCallT env
                  (RemoteCall.createWorkflow args.mobiushost args.workflowId) st0
                with ⟨resp, st1⟩
              dsimp only
              have hc1 : evClean st0 st1 := by
                have h5 : st1 = (remoteCallT env
                    (RemoteCall.createWorkflow args.mobiushost args.workflowId) st0).2 := by
                  rw [hrc]
                rw [h5]
                exact evClean_one st0 _ _ rfl (by simp [cleanEvts])
              by_cases h5s : (resp.status == 200) = true
              · rw [if_pos h5s]
                rcases resolve_exo_hints_total args st1 with ⟨hints, hh⟩ | ⟨e3, hh⟩
                · obtain ⟨sdh, siph, ssh⟩ := hints
                  rw [hh]
                  dsimp only [bindE]
                  exact ch_storage_either env fuel args sdh siph ssh (evClean_trans h0 hc1)
                · rw [hh]
                  dsimp only [bindE]
                  exact Or.inl (evClean_trans h0 hc1)
              · rw [if_neg h5s]
                exact Or.inl (evClean_trans h0 hc1)
      · rw [hv2]
        dsimp only [bindE]
        exact Or.inl h0
    · rw [hv1]
      dsimp only [bindE]
      exact Or.inl h0

/-- Every operation preserves the abort discipline. -/
lemma main_ops_spec (env : Env) (fuel : Nat) (args : Args) (st : S) :
    match main_ops env fuel args st with
    | Except.ok (_, st') =>
        evClean st st' ∨ evAborted args.mobiushost args.workflowId st st'
    | Except.error (_, st') =>
        evClean st st' ∨ evAborted args.mobiushost args.workflowId st st' := by
  unfold main_ops
  by_cases h1 : args.operation = str "get"
  · rw [if_pos h1]
    exact Or.inl (evClean_one st _ _ rfl (by simp [cleanEvts]))
  · rw [if_neg h1]
    by_cases h2 : args.operation = str "delete"
    · rw [if_pos h2]
      cases hcom : args.comethost with
      | none => exact Or.inl (evClean_one st _ _ rfl (by simp [cleanEvts]))
      | some ch => exact Or.inl (evClean_two st _ _ _ rfl (by simp [cleanEvts]))
    · rw [if_neg h2]
      by_cases h3 : args.operation = str "create"
      · rw [if_pos h3]
        have h6 := mainCreate_spec env fuel args st
        cases hres : mainCreate env fuel args st with
        | ok p =>
          obtain ⟨u, st'⟩ := p
          rw [hres] at h6
          exact h6
        | error p =>
          obtain ⟨e, st'⟩ := p
          rw [hres] at h6
          exact h6
      · rw [if_neg h3]
        exact Or.inl (evClean_rfl st)

/-- C1: the abort discipline holds of every run's full event trace: if a
node-creation remote call (storage, master, submit or any worker, on
either site) answers with a status other than 200, the very next recorded
event is the deletion of the whole workflow — `delete_workflow` is invoked
— and the run records nothing after it: no further node-creation request
is issued (a master failure means no submit or worker node is created)
and the failing call is not retried; the failing pass reports failure
(the provisioning result is `false`, per the per-phase contracts above),
which is what stops the flow. -/
theorem c1_abort_on_failure (env : Env) (fuel : Nat) (args : Args) :
    abortShape args.mobiushost args.workflowId (processRun env fuel args).2.events = true := by
  have hspec := main_ops_spec env fuel args { nCalls := 0, events := [], ipMap := [] }
  unfold processRun
  cases hres : main_ops env fuel args { nCalls := 0, events := [], ipMap := [] } with
  | ok p =>
    obtain ⟨u, st'⟩ := p
    rw [hres] at hspec
    show abortShape args.mobiushost args.workflowId st'.events = true
    cases hspec with
    | inl h1 =>
      obtain ⟨d, hd, hc⟩ := h1
      rw [hd]
      simpa using abortShape_of_clean args.mobiushost args.workflowId d hc
    | inr h2 =>
      obtain ⟨d, hd, ha⟩ := h2
      rw [hd]
      simpa using abortShape_of_aborted args.mobiushost args.workflowId d ha
  | error p =>
    obtain ⟨e, st'⟩ := p
    rw [hres] at hspec
    show abortShape args.mobiushost args.workflowId st'.events = true
    cases hspec with
    | inl h1 =>
      obtain ⟨d, hd, hc⟩ := h1
      rw [hd]
      simpa using abortShape_of_clean args.mobiushost args.workflowId d hc
    | inr h2 =>
      obtain ⟨d, hd, ha⟩ := h2
      rw [hd]
      simpa using abortShape_of_aborted args.mobiushost args.workflowId d ha
